import Mathlib

/-!
Verification of the beangulp Plaid importers.

This file shallowly embeds the transaction-classification and
posting-synthesis logic of the repository (src/importer/plaid.py,
src/plaid.py, src/plaid_bank.py, src/plaid_investment.py) and proves or
refutes the frozen claims about it.

Modelling conventions:
* Python `Decimal` values are modelled as `ℚ` (all arithmetic in the
  claims at issue is exact in both systems).
* Dates are modelled as integers (ordinal day numbers); `date(1970,1,1)`
  is day 0 and `date(1971,1,2)` is day 366.
* Python exceptions are modelled by `Except PyErr`.
* Python dicts used as metadata are association lists with
  insert-or-overwrite-in-place semantics, matching dict update order.
-/

/-- Python exceptions that the embedded code can raise. -/
inductive PyErr where
  | notImplementedError (msg : String)
  | keyError (key : String)
  | typeError
  | assertionError (msg : String)
deriving DecidableEq, Repr

instance {ε α : Type} [DecidableEq ε] [DecidableEq α] :
    DecidableEq (Except ε α) := fun x y =>
  match x, y with
  | .ok a, .ok b =>
      if h : a = b then .isTrue (by rw [h])
      else .isFalse (by intro hh; cases hh; exact h rfl)
  | .error a, .error b =>
      if h : a = b then .isTrue (by rw [h])
      else .isFalse (by intro hh; cases hh; exact h rfl)
  | .ok _, .error _ => .isFalse (by intro hh; cases hh)
  | .error _, .ok _ => .isFalse (by intro hh; cases hh)

/-- Metadata values occurring in posting/transaction metadata. -/
inductive MetaVal where
  | s (v : String)
  | b (v : Bool)
  | n (v : Nat)
deriving DecidableEq, Repr

/-- A metadata map (Python dict), as an association list. -/
abbrev Meta := List (String × MetaVal)

/-- Model: `k in d` for a Python dict. -/
def metaHas (m : Meta) (k : String) : Bool :=
  match m with
  | [] => false
  | (k', _) :: rest => if k' = k then true else metaHas rest k

/-- Model: `d[k]` for a Python dict, `none` when absent. -/
def metaGet (m : Meta) (k : String) : Option MetaVal :=
  match m with
  | [] => none
  | (k', v) :: rest => if k' = k then some v else metaGet rest k

/-- Model: `d[k] = v` for a Python dict: overwrite in place, else append. -/
def metaInsert (m : Meta) (k : String) (v : MetaVal) : Meta :=
  match m with
  | [] => [(k, v)]
  | (k', v') :: rest =>
      if k' = k then (k', v) :: rest else (k', v') :: metaInsert rest k v

/-- beancount `amount.Amount`: a number with a currency. -/
structure BAmount where
  number : ℚ
  currency : String
deriving DecidableEq, Repr

/-- Negation of an amount (`-amount.Amount(...)`). -/
def BAmount.neg (a : BAmount) : BAmount := ⟨-a.number, a.currency⟩

/-- beancount `position.Cost` (label always `None` in this code). -/
structure BCost where
  number : ℚ
  currency : String
  date : Int
deriving DecidableEq, Repr

/-- beancount `data.Posting`.  The units currency may be `None` in
Python when a ticker is unknown; the embedded handlers only build
postings with a present currency string, so `units : BAmount` keeps a
plain `String` and the unknown-ticker fallback substitutes a sentinel
exactly where the source does. -/
structure Posting where
  account : String
  units : BAmount
  cost : Option BCost
  price : Option BAmount
  flag : Option String
  meta : Option Meta
deriving DecidableEq, Repr

/-- beancount `data.Transaction` (tags and links are always the empty
set in this code and are omitted). -/
structure BTransaction where
  meta : Meta
  date : Int
  flag : String
  payee : Option String
  narration : String
  postings : List Posting
deriving DecidableEq, Repr

/-- beancount `data.Balance` (tolerance and diff always `None` here). -/
structure BBalance where
  meta : Meta
  date : Int
  account : String
  amount : BAmount
deriving DecidableEq, Repr

/-- beancount `data.Price`.  The commodity may be an unresolved `None`
ticker in the holdings path, hence `Option String`. -/
structure BPrice where
  meta : Meta
  date : Int
  currency : Option String
  amount : BAmount
deriving DecidableEq, Repr

/-- A ledger directive, as far as this code distinguishes them. -/
inductive Entry where
  | txn (t : BTransaction)
  | bal (b : BBalance)
  | price (p : BPrice)
  | other
deriving DecidableEq, Repr

/-- Model: `data.new_metadata(filepath, index)`. -/
def newMetadata (filepath : String) (index : Nat) : Meta :=
  [("filename", MetaVal.s filepath), ("lineno", MetaVal.n index)]

/-- Model: `flags.FLAG_OKAY`. -/
def FLAG_OKAY : String := "*"

/-- Model: `flags.FLAG_WARNING`. -/
def FLAG_WARNING : String := "!"

/-- Python `needle in hay` on lists of characters: some suffix of `hay`
starts with `needle`. -/
def containsSeq (needle : List Char) : List Char → Bool
  | [] => needle.isEmpty
  | c :: rest => needle.isPrefixOf (c :: rest) || containsSeq needle rest

/-- Python substring test `needle in hay` on strings. -/
def strContainsSub (hay needle : String) : Bool :=
  containsSeq needle.toList hay.toList

/-- Python `s.replace(c, repl)` for a single-character pattern: every
occurrence of `c` becomes `repl`. -/
def pyReplaceChar (s : String) (c : Char) (repl : List Char) : String :=
  ⟨s.data.foldr (fun ch acc => if ch = c then repl ++ acc else ch :: acc) []⟩

/-- Python `sep.join(parts)`. -/
def joinWith (sep : String) : List String → String
  | [] => ""
  | [s] => s
  | s :: rest => s ++ sep ++ joinWith sep rest

/-- Lexicographic comparison of character lists by code point, as
Python compares strings. -/
def charListLe : List Char → List Char → Bool
  | [], _ => true
  | _ :: _, [] => false
  | a :: as, b :: bs => if a = b then charListLe as bs else decide (a < b)

/-- Python string `<=`. -/
def pyStrLe (a b : String) : Bool :=
  charListLe a.data b.data

/-- A Plaid security record, with the fields this code reads. -/
structure Security where
  security_id : String
  name : String
  ticker_symbol : Option String
  is_cash_equivalent : Bool
  close_price : ℚ
  close_price_as_of : Option Int
  iso_currency_code : String
deriving DecidableEq, Repr

/-- A Plaid investment transaction record, with the fields this code
reads.  `subtype` is `Option String` because Plaid sends `null` for
some types (the `cancel` row of the dispatch table keys on `None`). -/
structure PlaidInvTxn where
  investment_transaction_id : String
  account_id : String
  ttype : String
  subtype : Option String
  date : Int
  name : String
  amount : ℚ
  quantity : ℚ
  price : ℚ
  fees : ℚ
  iso_currency_code : String
  security_id : String
deriving DecidableEq, Repr

/-- A Plaid bank transaction record, with the fields this code reads. -/
structure PlaidBankTxn where
  transaction_id : String
  account_id : String
  pending : Bool
  date : Int
  name : String
  merchant_name : Option String
  amount : ℚ
  iso_currency_code : String
  category : List String
deriving DecidableEq, Repr

/-- A Plaid holding record, with the fields this code reads. -/
structure Holding where
  security_id : String
  account_id : String
  quantity : ℚ
  institution_price : ℚ
  institution_price_as_of : Option Int
  iso_currency_code : String
deriving DecidableEq, Repr

/-- Dict lookup in a `security_id → Security` table, `KeyError`-style. -/
def secLookup (secs : List (String × Security)) (id : String) :
    Except PyErr Security :=
  match secs.find? (fun kv => kv.1 == id) with
  | some kv => .ok kv.2
  | none => .error (.keyError id)

/-- Dict insert-or-overwrite for the `security_id → Security` tables. -/
def secInsert (secs : List (String × Security)) (id : String)
    (s : Security) : List (String × Security) :=
  match secs with
  | [] => [(id, s)]
  | (k, v) :: rest =>
      if k = id then (k, s) :: rest else (k, v) :: secInsert rest id s

namespace ImporterPlaid

/-!  Embedding of `src/importer/plaid.py` (`class Importer`). -/

/-- The constructor configuration of `Importer.__init__`, after the
default-substitution logic has run (the `or`-defaults are applied by
`Config.make` below). -/
structure Config where
  account_name : String
  account_id : String
  cash_account : String
  dividend_income_account : String
  fees_account : String
  gains_loss_account : String
  exclude_descriptions : Option (List String)
  rounding_account : String
  money_market_funds : List String
  balance_timedelta : Int
deriving Repr

/-- Model: `Importer.__init__`: applies the `or`-defaults of the source.
`exclude_descriptions` stays `None` when not supplied (the source never
defaults it), and a `None` `money_market_funds` becomes `['']`. -/
def Config.make (account_name account_id : String)
    (cash_account dividend_income_account fees_account
     gains_loss_account : Option String)
    (exclude_descriptions : Option (List String))
    (rounding_account : Option String)
    (money_market_funds : Option (List String))
    (balance_timedelta : Int) : Config where
  account_name := account_name
  account_id := account_id
  cash_account := cash_account.getD (account_name ++ ":Cash")
  dividend_income_account := dividend_income_account.getD "Income:Dividends"
  fees_account := fees_account.getD "Expenses:Fees"
  gains_loss_account := gains_loss_account.getD "Income:PnL"
  exclude_descriptions := exclude_descriptions
  rounding_account := rounding_account.getD "Equity:Rounding-Error"
  money_market_funds := money_market_funds.getD [""]
  balance_timedelta := balance_timedelta

/-- The default constructor call `Importer(account_name, account_id)`. -/
def Config.default (account_name account_id : String) : Config :=
  Config.make account_name account_id none none none none none none none 1

/-- Render an optional subtype the way an f-string renders it. -/
def optStr : Option String → String
  | none => "None"
  | some s => s

/-- Model: `Importer.unknown_transaction`: always raises. -/
def unknown_transaction (t : PlaidInvTxn) : Except PyErr BTransaction :=
  .error (.notImplementedError
    ("Id: " ++ t.investment_transaction_id ++
     " investment transaction not supported, type: " ++ t.ttype ++
     ", Subtype: " ++ optStr t.subtype))

/-- Model: `Importer.invs_cash_withdrawal`. -/
def invs_cash_withdrawal (cfg : Config) (t : PlaidInvTxn)
    (filepath : String) (index : Nat) : Except PyErr BTransaction :=
  let amt := t.amount
  let currency := t.iso_currency_code
  let post_meta : Meta := [("plaid_id", MetaVal.s t.investment_transaction_id)]
  let post : Posting :=
    ⟨cfg.cash_account, (BAmount.mk amt currency).neg, none, none, none,
      some post_meta⟩
  .ok ⟨newMetadata filepath index, t.date, FLAG_OKAY, none, t.name, [post]⟩

/-- Model: `Importer.invs_cash_deposit` (identical body to the withdrawal
handler in the source). -/
def invs_cash_deposit (cfg : Config) (t : PlaidInvTxn)
    (filepath : String) (index : Nat) : Except PyErr BTransaction :=
  let amt := t.amount
  let currency := t.iso_currency_code
  let post_meta : Meta := [("plaid_id", MetaVal.s t.investment_transaction_id)]
  let post : Posting :=
    ⟨cfg.cash_account, (BAmount.mk amt currency).neg, none, none, none,
      some post_meta⟩
  .ok ⟨newMetadata filepath index, t.date, FLAG_OKAY, none, t.name, [post]⟩

/-- Model: `Importer.invs_cash_dividend`. -/
def invs_cash_dividend (cfg : Config) (secs : List (String × Security))
    (t : PlaidInvTxn) (filepath : String) (index : Nat) :
    Except PyErr BTransaction := do
  let security ← secLookup secs t.security_id
  let amt := t.amount
  let currency := t.iso_currency_code
  let post_meta : Meta := [("plaid_id", MetaVal.s t.investment_transaction_id)]
  let p1 : Posting :=
    ⟨cfg.dividend_income_account, ⟨amt, currency⟩, none, none, none,
      some post_meta⟩
  let p2 : Posting :=
    ⟨cfg.cash_account, (BAmount.mk amt currency).neg, none, none, none, none⟩
  .ok ⟨newMetadata filepath index, t.date, FLAG_OKAY, some security.name,
       t.name, [p1, p2]⟩

/-- Model: `Importer._invs_buy`: the compound buy/sell/reinvest/fee handler. -/
def _invs_buy (cfg : Config) (secs : List (String × Security))
    (account : String) (t : PlaidInvTxn) (filepath : String) (index : Nat) :
    Except PyErr BTransaction := do
  let security ← secLookup secs t.security_id
  let security_ticker := security.ticker_symbol.getD "unknown"
  let security_name := security.name
  let quantity := t.quantity
  let amt := t.amount
  let price := t.price
  let fees := t.fees
  let currency := t.iso_currency_code
  let post_meta : Meta := [("plaid_id", MetaVal.s t.investment_transaction_id)]
  -- Post: account to move cash from
  let cashPost : Posting :=
    ⟨account, (BAmount.mk (amt + fees) currency).neg, none, none, none, none⟩
  -- Post: fees
  let feePosts : List Posting :=
    if fees ≠ 0 then
      [⟨cfg.fees_account, ⟨fees, currency⟩, none, none, none, none⟩]
    else []
  let tailPosts : List Posting :=
    if security_ticker ∈ cfg.money_market_funds then
      -- a mutual fund tracking cash 1:1: no cost lot
      [⟨cfg.account_name ++ ":" ++ security_ticker,
        ⟨amt + fees, security_ticker⟩, none, some ⟨1, "USD"⟩, none,
        some post_meta⟩]
    else
      -- Post: to security, at cost
      let cost : BCost := ⟨price, currency, t.date⟩
      let lotPost : Posting :=
        ⟨cfg.account_name ++ ":" ++ security_ticker,
          ⟨quantity, security_ticker⟩, some cost, some ⟨amt, currency⟩, none,
          some post_meta⟩
      let gain_loss_or_rounding_error := amt - quantity * price
      if gain_loss_or_rounding_error ≠ 0 then
        if t.ttype = "sell" then
          [lotPost,
           ⟨cfg.gains_loss_account, ⟨gain_loss_or_rounding_error, currency⟩,
             none, none, none, none⟩]
        else
          [lotPost,
           ⟨cfg.rounding_account, ⟨gain_loss_or_rounding_error, currency⟩,
             none, none, none, none⟩]
      else [lotPost]
  .ok ⟨newMetadata filepath index, t.date, FLAG_OKAY, some security_name,
       t.name, cashPost :: feePosts ++ tailPosts⟩

/-- Model: `Importer.invs_buy_reinvestment`. -/
def invs_buy_reinvestment (cfg : Config) (secs : List (String × Security))
    (t : PlaidInvTxn) (filepath : String) (index : Nat) :
    Except PyErr BTransaction :=
  _invs_buy cfg secs cfg.dividend_income_account t filepath index

/-- Model: `Importer.invs_buy_sell`. -/
def invs_buy_sell (cfg : Config) (secs : List (String × Security))
    (t : PlaidInvTxn) (filepath : String) (index : Nat) :
    Except PyErr BTransaction :=
  _invs_buy cfg secs cfg.cash_account t filepath index

/-- Model: `Importer.invs_fees_account`. -/
def invs_fees_account (cfg : Config) (secs : List (String × Security))
    (t : PlaidInvTxn) (filepath : String) (index : Nat) :
    Except PyErr BTransaction := do
  let security ← secLookup secs t.security_id
  if security.ticker_symbol = none ∧ security.is_cash_equivalent then
    let amt := t.amount
    let currency := t.iso_currency_code
    let post_meta : Meta :=
      [("plaid_id", MetaVal.s t.investment_transaction_id)]
    let p1 : Posting :=
      ⟨cfg.fees_account, ⟨amt, currency⟩, none, none, none, none⟩
    let p2 : Posting :=
      ⟨cfg.cash_account, (BAmount.mk amt currency).neg, none, none, none,
        some post_meta⟩
    .ok ⟨newMetadata filepath index, t.date, FLAG_OKAY, none, t.name,
         [p1, p2]⟩
  else
    _invs_buy cfg secs cfg.fees_account t filepath index

/-- Which handler a dispatch-table entry refers to. -/
inductive HandlerTag where
  | unknown
  | buySell
  | buyReinvestment
  | cashDeposit
  | cashWithdrawal
  | cashDividend
  | feesAccount
deriving DecidableEq, Repr

/-- The nested dispatch dict `Importer.inv_trans_cb`:
`inv_trans_cb[type][subtype]`, `none` meaning a `KeyError` at either
level.  Every row of the source table is reproduced. -/
def inv_trans_cb (ty : String) (subty : Option String) : Option HandlerTag :=
  if ty = "buy" then
    match subty with
    | some "assignment" => some .unknown
    | some "contribution" => some .unknown
    | some "buy" => some .buySell
    | some "buy to cover" => some .unknown
    | some "dividend reinvestment" => some .unknown
    | some "interest reinvestment" => some .unknown
    | some "long-term capital gain reinvestment" => some .buyReinvestment
    | some "short-term capital gain reinvestment" => some .unknown
    | _ => none
  else if ty = "sell" then
    match subty with
    | some "distribution" => some .unknown
    | some "exercise" => some .unknown
    | some "sell" => some .buySell
    | some "sell short" => some .unknown
    | _ => none
  else if ty = "cancel" then
    match subty with
    | none => some .unknown
    | some _ => none
  else if ty = "cash" then
    match subty with
    | some "account fee" => some .unknown
    | some "contribution" => some .cashDeposit
    | some "deposit" => some .cashDeposit
    | some "dividend" => some .cashDividend
    | some "stock distribution" => some .unknown
    | some "interest" => some .cashDividend
    | some "legal fee" => some .unknown
    | some "long-term capital gain" => some .unknown
    | some "management fee" => some .unknown
    | some "margin expense" => some .unknown
    | some "non-qualified dividend" => some .unknown
    | some "non-resident tax" => some .unknown
    | some "pending credit" => some .unknown
    | some "pending debit" => some .unknown
    | some "qualified dividend" => some .unknown
    | some "short-term capital gain" => some .unknown
    | some "tax" => some .unknown
    | some "tax withheld" => some .unknown
    | some "transfer fee" => some .unknown
    | some "trust fee" => some .unknown
    | some "unqualified gain" => some .unknown
    | some "withdrawal" => some .cashWithdrawal
    | _ => none
  else if ty = "fee" then
    match subty with
    | some "account fee" => some .feesAccount
    | some "adjustment" => some .unknown
    | some "dividend" => some .unknown
    | some "interest" => some .unknown
    | some "interest receivable" => some .unknown
    | some "long-term capital gain" => some .unknown
    | some "legal fee" => some .unknown
    | some "management fee" => some .unknown
    | some "margin expense" => some .unknown
    | some "miscellaneous fee" => some .feesAccount
    | some "non-qualified dividend" => some .unknown
    | some "non-resident tax" => some .unknown
    | some "qualified dividend" => some .unknown
    | some "return of principal" => some .unknown
    | some "short-term capital gain" => some .unknown
    | some "stock distribution" => some .unknown
    | some "tax" => some .unknown
    | some "tax withheld" => some .unknown
    | some "transfer fee" => some .unknown
    | some "trust fee" => some .unknown
    | some "unqualified gain" => some .unknown
    | _ => none
  else if ty = "transfer" then
    match subty with
    | some "assignment" => some .unknown
    | some "adjustment" => some .unknown
    | some "exercise" => some .unknown
    | some "expire" => some .unknown
    | some "merger" => some .unknown
    | some "request" => some .unknown
    | some "send" => some .unknown
    | some "spin off" => some .unknown
    | some "split" => some .unknown
    | some "trade" => some .unknown
    | some "transfer" => some .unknown
    | _ => none
  else none

/-- Run the handler a dispatch tag refers to. -/
def runHandler (cfg : Config) (secs : List (String × Security))
    (tag : HandlerTag) (t : PlaidInvTxn) (filepath : String) (index : Nat) :
    Except PyErr BTransaction :=
  match tag with
  | .unknown => unknown_transaction t
  | .buySell => invs_buy_sell cfg secs t filepath index
  | .buyReinvestment => invs_buy_reinvestment cfg secs t filepath index
  | .cashDeposit => invs_cash_deposit cfg t filepath index
  | .cashWithdrawal => invs_cash_withdrawal cfg t filepath index
  | .cashDividend => invs_cash_dividend cfg secs t filepath index
  | .feesAccount => invs_fees_account cfg secs t filepath index

/-- Model: `any(txt in description for txt in self.exclude_descriptions)`:
iterating over `None` raises a `TypeError`. -/
def excludedDesc (excl : Option (List String)) (description : String) :
    Except PyErr Bool :=
  match excl with
  | none => .error .typeError
  | some l => .ok (l.any (fun txt => strContainsSub description txt))

/-- The account/pending filter of `Importer.enumerate`, specialized to
investment transactions (which carry an `account_id` and no `pending`
field), keeping the per-list index. -/
def enumerateInv (cfg : Config) (ts : List PlaidInvTxn) :
    List (Nat × PlaidInvTxn) :=
  ts.enum.filter (fun it => it.2.account_id == cfg.account_id)

/-- The account/pending filter of `Importer.enumerate`, specialized to
bank transactions (which carry both an `account_id` and a `pending`
field), keeping the per-list index. -/
def enumerateBank (cfg : Config) (ts : List PlaidBankTxn) :
    List (Nat × PlaidBankTxn) :=
  ts.enum.filter
    (fun it => it.2.account_id == cfg.account_id && !it.2.pending)

/-- The loop body sequence of `Importer._extract_investments` over the
already-filtered transactions. -/
def extractInvestmentsLoop (cfg : Config) (secs : List (String × Security))
    (filepath : String) : List (Nat × PlaidInvTxn) →
    Except PyErr (List BTransaction)
  | [] => .ok []
  | (index, t) :: rest => do
      let tag ←
        match inv_trans_cb t.ttype t.subtype with
        | some tag => pure tag
        | none =>
            .error (.notImplementedError
              ("Unknown Transaction Type - " ++ t.ttype ++ ":" ++
               optStr t.subtype ++ " "))
      let txn ← runHandler cfg secs tag t filepath index
      let excluded ← excludedDesc cfg.exclude_descriptions txn.narration
      let restEntries ← extractInvestmentsLoop cfg secs filepath rest
      if excluded then
        .ok restEntries
      else
        .ok (txn :: restEntries)

/-- Model: `Importer._extract_investments` on one batch of raw investment
transactions. -/
def _extract_investments (cfg : Config) (secs : List (String × Security))
    (filepath : String) (ts : List PlaidInvTxn) :
    Except PyErr (List BTransaction) :=
  extractInvestmentsLoop cfg secs filepath (enumerateInv cfg ts)

/-- The loop body sequence of `Importer._extract_bank` over the
already-filtered transactions. -/
def extractBankLoop (cfg : Config) (filepath : String) :
    List (Nat × PlaidBankTxn) → Except PyErr (List BTransaction)
  | [] => .ok []
  | (index, t) :: rest => do
      let units := BAmount.mk t.amount t.iso_currency_code
      let leg : Posting :=
        ⟨cfg.account_name, units.neg, none, none, none,
          some [("plaid_id", MetaVal.s t.transaction_id)]⟩
      let txn : BTransaction :=
        ⟨newMetadata filepath index, t.date, FLAG_OKAY, t.merchant_name,
          t.name, [leg]⟩
      let excluded ← excludedDesc cfg.exclude_descriptions t.name
      let restEntries ← extractBankLoop cfg filepath rest
      if excluded then
        .ok restEntries
      else
        .ok (txn :: restEntries)

/-- Model: `Importer._extract_bank` on one batch of raw bank transactions. -/
def _extract_bank (cfg : Config) (filepath : String)
    (ts : List PlaidBankTxn) : Except PyErr (List BTransaction) :=
  extractBankLoop cfg filepath (enumerateBank cfg ts)

/-- Model: `Importer._get_securities`: build the `security_id → Security`
table, first from the holdings section, then from the
investment-transactions section, later inserts overwriting earlier
ones.  (Security records carry neither an `account_id` nor a `pending`
field, so `Importer.enumerate` passes them all through.) -/
def _get_securities (holdingSecs txnSecs : List Security) :
    List (String × Security) :=
  let afterHoldings :=
    holdingSecs.foldl (fun tbl s => secInsert tbl s.security_id s) []
  txnSecs.foldl (fun tbl s => secInsert tbl s.security_id s) afterHoldings

/-- Model: `date(1970, 1, 1)` as an ordinal day number. -/
def epoch1970 : Int := 0

/-- Model: `date(1971, 1, 2)` as an ordinal day number (366 days after
1970-01-01). -/
def sentinel1971 : Int := 366

/-- The per-holding body of `Importer._investment_create_prices`:
`none` when the holding is skipped (filtered out or no price emitted).
Raises `KeyError` when the security table lacks the holding's id. -/
def _investment_create_price_one (cfg : Config)
    (secs : List (String × Security)) (filepath : String) (index : Nat)
    (holding : Holding) : Except PyErr (Option BPrice) := do
  if holding.account_id = cfg.account_id then
    let security ← secLookup secs holding.security_id
    let ticker := security.ticker_symbol
    let h_date := holding.institution_price_as_of.getD epoch1970
    let s_date := security.close_price_as_of.getD epoch1970
    let (price, currency, latest_date) :=
      if s_date > h_date then
        (security.close_price, security.iso_currency_code, s_date)
      else
        (holding.institution_price, holding.iso_currency_code, h_date)
    if price ≠ 1 ∧ latest_date > sentinel1971 then
      .ok (some ⟨newMetadata filepath index, latest_date, ticker,
                 ⟨price, currency⟩⟩)
    else
      .ok none
  else
    .ok none

end ImporterPlaid

namespace PlaidPy

/-!  Embedding of `src/plaid.py`: the similarity comparator
`PlaidSimilarityComparator.__call__` and its helper `amounts_map`.
Decimal arithmetic is modelled exactly over `ℚ` (Decimal division
rounds to 28 significant digits; no claim at issue depends on that
rounding). -/

/-- The key of the per-entry amount map:
`(posting.account, posting.meta['plaid_id'], posting.units.currency)`. -/
abbrev AKey := String × MetaVal × String

/-- Render a metadata value for sorting, mirroring how Python orders
the (always string-valued) `plaid_id` components of the keys. -/
def mvSortStr : MetaVal → String
  | .s v => v
  | .b v => cond v "True" "False"
  | .n v => toString v

/-- Lexicographic order on amount-map keys, as Python `sorted` orders
the `(account, plaid_id, currency)` tuples. -/
def keyLe (k1 k2 : AKey) : Bool :=
  if k1.1 = k2.1 then
    if mvSortStr k1.2.1 = mvSortStr k2.2.1 then
      pyStrLe k1.2.2 k2.2.2
    else
      pyStrLe (mvSortStr k1.2.1) (mvSortStr k2.2.1)
  else pyStrLe k1.1 k2.1

/-- Insert into a sorted key list. -/
def insertSorted (k : AKey) : List AKey → List AKey
  | [] => [k]
  | k' :: rest =>
      if keyLe k k' then k :: k' :: rest else k' :: insertSorted k rest

/-- Sort a key list ascending (`sorted(common_keys)`). -/
def sortKeys : List AKey → List AKey
  | [] => []
  | k :: rest => insertSorted k (sortKeys rest)

/-- Model: `defaultdict` accumulation: add `v` at key `k`, starting from 0. -/
def addToMap (m : List (AKey × ℚ)) (k : AKey) (v : ℚ) : List (AKey × ℚ) :=
  match m with
  | [] => [(k, v)]
  | (k', v') :: rest =>
      if k' = k then (k', v' + v) :: rest else (k', v') :: addToMap rest k v

/-- Model: `amounts_map(entry)`: map `(account, plaid_id, currency)` to the
accumulated signed amount over the postings that carry a metadata map
which is non-empty, not marked `__automatic__`, and holds a
`plaid_id`. -/
def amounts_map (e : BTransaction) : List (AKey × ℚ) :=
  e.postings.foldl (fun m p =>
    match p.meta with
    | none => m
    | some md =>
        if md.isEmpty then m
        else if metaHas md "__automatic__" || !metaHas md "plaid_id" then m
        else
          let pid := (metaGet md "plaid_id").getD (MetaVal.s "")
          addToMap m (p.account, pid, p.units.currency) p.units.number) []

/-- Look an amount up in an amount map (`defaultdict`: 0 when absent,
though the scan only queries shared keys). -/
def lookupAmt (m : List (AKey × ℚ)) (k : AKey) : ℚ :=
  match m with
  | [] => 0
  | (k', v) :: rest => if k' = k then v else lookupAmt rest k

/-- Model: `PlaidSimilarityComparator.EPSILON`. -/
def EPSILON : ℚ := 5 / 100

/-- The `for key in sorted(common_keys)` loop of
`PlaidSimilarityComparator.__call__`: `true` on `break` (similar),
`false` on `return False` inside the loop or on loop exhaustion. -/
def scanKeys (a1 a2 : List (AKey × ℚ)) : List AKey → Bool
  | [] => false
  | k :: rest =>
      let number1 := lookupAmt a1 k
      let number2 := lookupAmt a2 k
      if number1 = 0 ∧ number2 = 0 then true
      else
        let diff := if number2 ≠ 0 then |number1 / number2|
                    else |number2 / number1|
        if diff = 0 then false
        else
          let diff := if diff < 1 then 1 / diff else diff
          if diff - 1 < EPSILON then true else scanKeys a1 a2 rest

/-- Boolean key membership. -/
def keyMem (k : AKey) : List AKey → Bool
  | [] => false
  | k' :: rest => if k = k' then true else keyMem k rest

/-- The sorted intersection of the two maps' key sets. -/
def commonKeysSorted (a1 a2 : List (AKey × ℚ)) : List AKey :=
  sortKeys ((a1.map Prod.fst).filter
    (fun k => keyMem k (a2.map Prod.fst)))

/-- The date-tolerance check at the top of
`PlaidSimilarityComparator.__call__`: `false` means `return False`. -/
def dateOk (max_date_delta : Option Int) (entry1 entry2 : BTransaction) :
    Bool :=
  match max_date_delta with
  | none => true
  | some d =>
      let delta := if entry1.date > entry2.date
                   then entry1.date - entry2.date
                   else entry2.date - entry1.date
      !(delta > d)

/-- Model: `PlaidSimilarityComparator.__call__` (the per-pass memo cache is
semantically transparent and is not modelled). -/
def similarityCompare (max_date_delta : Option Int)
    (entry1 entry2 : BTransaction) : Bool :=
  if !dateOk max_date_delta entry1 entry2 then false
  else
    let amounts1 := amounts_map entry1
    let amounts2 := amounts_map entry2
    scanKeys amounts1 amounts2 (commonKeysSorted amounts1 amounts2)

end PlaidPy

namespace PlaidBank

/-!  Embedding of `src/plaid_bank.py` (`Importer.extract`). -/

/-- The category-to-account-path normalization of the bank extractor:
join the components with `':'`, then strip apostrophes and commas and
turn spaces into hyphens. -/
def normalizeCategory (cats : List String) : String :=
  pyReplaceChar
    (pyReplaceChar (pyReplaceChar (joinWith ":" cats) '\'' []) ',' [])
    ' ' ['-']

/-- The per-transaction body of the bank `extract` loop: `none` for a
pending transaction, otherwise the synthesized two-posting entry.
`currency` is the account-level balance currency the source reads
once. -/
def extractTxnOne (account_name filepath : String) (currency : String)
    (index : Nat) (t : PlaidBankTxn) : Option BTransaction :=
  if t.pending then none
  else
    let units := BAmount.mk t.amount currency
    let pst_account := normalizeCategory t.category
    let leg1 : Posting :=
      ⟨account_name, units.neg, none, none, none,
        some [("transaction_id", MetaVal.s t.transaction_id)]⟩
    let leg2 : Posting :=
      ⟨"Expenses:" ++ pst_account, units, none, none, some FLAG_WARNING,
        none⟩
    some ⟨newMetadata filepath index, t.date, FLAG_OKAY, t.merchant_name,
          t.name, [leg1, leg2]⟩

/-- The transaction entries of the bank `extract` (the trailing balance
assertion is appended separately by `extract` below). -/
def extractTxns (account_name filepath currency : String)
    (ts : List PlaidBankTxn) : List BTransaction :=
  ts.enum.filterMap
    (fun it => extractTxnOne account_name filepath currency it.1 it.2)

/-- Model: `date.min` of the balance-date fold, as an ordinal day number. -/
def dateMin : Int := -719162

/-- The latest non-pending transaction date (`last_date` fold). -/
def lastDate (ts : List PlaidBankTxn) : Int :=
  ts.foldl (fun acc t => if t.pending then acc
                         else if t.date > acc then t.date else acc) dateMin

/-- Model: `Importer.extract` of the bank importer: the synthesized
transactions followed, when any exist, by a balance assertion dated one
day after the last transaction date. -/
def extract (account_name filepath : String) (balance : ℚ)
    (currency : String) (ts : List PlaidBankTxn) : List Entry :=
  let txns := (extractTxns account_name filepath currency ts).map Entry.txn
  if txns.length ≠ 0 then
    txns ++ [Entry.bal ⟨newMetadata filepath 0, lastDate ts + 1,
                        account_name, ⟨balance, currency⟩⟩]
  else txns

end PlaidBank

namespace PlaidInvestment

/-!  Embedding of `src/plaid_investment.py` (`Importer.deduplicate`). -/

/-- The metadata key marking a detected duplicate. -/
def DUPLICATE : String := "__duplicate__"

/-- Collect the `transaction_id` metadata values of a posting list.
The source tests `'transaction_id' in posting.meta` without a `None`
guard, so a posting without a metadata map raises a `TypeError`. -/
def postingIds (ps : List Posting) : Except PyErr (List MetaVal) :=
  ps.foldlM (fun ids p =>
    match p.meta with
    | none => .error .typeError
    | some md =>
        match metaGet md "transaction_id" with
        | some v => .ok (ids ++ [v])
        | none => .ok ids) []

/-- The `plaid_ids` set built from the existing ledger's transactions. -/
def existingIds (existing : List Entry) : Except PyErr (List MetaVal) :=
  existing.foldlM (fun ids e =>
    match e with
    | .txn t => do
        let more ← postingIds t.postings
        pure (ids ++ more)
    | _ => pure ids) []

/-- The inner posting loop of `deduplicate`: rebind the entry with a
`__duplicate__ = True` metadata key each time a posting's
`transaction_id` is among the existing ids. -/
def markTxn (ids : List MetaVal) (t : BTransaction) : BTransaction :=
  t.postings.foldl (fun cur p =>
    match p.meta with
    | none => cur
    | some md =>
        match metaGet md "transaction_id" with
        | none => cur
        | some v =>
            if v ∈ ids then
              { cur with meta := metaInsert cur.meta DUPLICATE (MetaVal.b true) }
            else cur) t

/-- Model: `Importer.deduplicate`. -/
def deduplicate (entries existing : List Entry) :
    Except PyErr (List Entry) := do
  let ids ← existingIds existing
  pure (entries.map (fun e =>
    match e with
    | .txn t => .txn (markTxn ids t)
    | e => e))

end PlaidInvestment

/-!  Spec-side notions used to state the claims. -/

/-- The balancing weight of a posting, following the beancount
convention the spec's balance invariant refers to: a posting held at
cost weighs `quantity × cost price` in the cost currency; a posting
with a plain price annotation weighs `quantity × price` in the price
currency; otherwise the posting weighs its own units. -/
def postingWeight (p : Posting) : BAmount :=
  match p.cost with
  | some c => ⟨p.units.number * c.number, c.currency⟩
  | none =>
      match p.price with
      | some pr => ⟨p.units.number * pr.number, pr.currency⟩
      | none => p.units

/-- The signed sum, in one currency, of the cash-denominated posting
amounts of an entry, excluding postings that open a cost lot (the
claim's literal reading). -/
def cashSum (ps : List Posting) (cur : String) : ℚ :=
  ps.foldl (fun acc p =>
    match p.cost with
    | some _ => acc
    | none =>
        acc + (if p.units.currency = cur then p.units.number else 0)) 0

/-- The signed sum, in one currency, of the posting weights of an
entry. -/
def weightSum (ps : List Posting) (cur : String) : ℚ :=
  ps.foldl (fun acc p =>
    acc + (if (postingWeight p).currency = cur then (postingWeight p).number
           else 0)) 0

/-- The record a list of securities carries last for a given
identifier (spec side of the last-write-wins claim). -/
def lastWithId : List Security → String → Option Security
  | [], _ => none
  | s :: rest, id =>
      match lastWithId rest id with
      | some r => some r
      | none => if s.security_id = id then some s else none

/-- Plain dict lookup in a `security_id → Security` table. -/
def secLookupO (tbl : List (String × Security)) (id : String) :
    Option Security :=
  (tbl.find? (fun kv => kv.1 == id)).map (·.2)

/-- Model: `Importer.__build_security_table` of `src/plaid_investment.py` and
`src/plaid.py`: fold one securities list into a table. -/
def buildSecurityTable (securities : List Security) :
    List (String × Security) :=
  securities.foldl (fun tbl s => secInsert tbl s.security_id s) []

/-!  ## Claim C4: the concrete buy example -/

/-- The all-default configuration of the concrete buy example. -/
def cfgC4 : ImporterPlaid.Config :=
  ImporterPlaid.Config.default "Assets:Inv" "acct1"

/-- A security with ticker `XYZ`, not in the (default, `[""]`)
money-market set. -/
def secC4 : Security :=
  ⟨"sec1", "XYZ Corp", some "XYZ", false, 100, some 400, "USD"⟩

/-- The claim's transaction: type buy, subtype buy, amount 1010,
fee 10, quantity 10, price 100, USD. -/
def tC4 : PlaidInvTxn :=
  ⟨"tid1", "acct1", "buy", some "buy", 500, "buy xyz", 1010, 10, 100, 10,
   "USD", "sec1"⟩

/-- C4, counterexample: on the claim's input the buy/sell handler emits
FOUR postings — cash −1020, fees +10, the lot, and a NON-ZERO
rounding-error posting of +10 USD (the discrepancy is
1010 − 10×100 = 10, not 0: the traded amount includes the fee, which the
discrepancy computation does not subtract).  The claim's "rounding-error
amount of 0 (no non-zero rounding posting)" is false here. -/
theorem C4_counterexample :
    (ImporterPlaid._invs_buy cfgC4 [("sec1", secC4)] cfgC4.cash_account tC4
        "f.json" 0).map
      (fun txn => txn.postings.map (fun p => (p.account, p.units.number))) =
    .ok [("Assets:Inv:Cash", -1020), ("Expenses:Fees", 10),
         ("Assets:Inv:XYZ", 10), ("Equity:Rounding-Error", 10)] ∧
    ((10 : ℚ) ≠ 0) := by
  constructor
  · simp [ImporterPlaid._invs_buy, cfgC4, secC4, tC4,
          ImporterPlaid.Config.default, ImporterPlaid.Config.make, secLookup,
          BAmount.neg, Bind.bind, Except.bind, Except.map, Option.getD]
    norm_num
  · norm_num

/-- C4, amended: the claim's input yields cash −1020 USD, fee +10 USD,
a lot of +10 XYZ at 100 USD per-unit cost, AND a rounding-error posting
of +10 USD (discrepancy = amount − quantity×price = 1010 − 1000 = 10);
the fee is isolated from the lot but not netted out of the discrepancy. -/
theorem C4_amended_buy_example :
    ImporterPlaid._invs_buy cfgC4 [("sec1", secC4)] cfgC4.cash_account tC4
        "f.json" 0 =
    .ok ⟨newMetadata "f.json" 0, 500, FLAG_OKAY, some "XYZ Corp", "buy xyz",
      [⟨"Assets:Inv:Cash", ⟨-1020, "USD"⟩, none, none, none, none⟩,
       ⟨"Expenses:Fees", ⟨10, "USD"⟩, none, none, none, none⟩,
       ⟨"Assets:Inv:XYZ", ⟨10, "XYZ"⟩, some ⟨100, "USD", 500⟩,
         some ⟨1010, "USD"⟩, none, some [("plaid_id", MetaVal.s "tid1")]⟩,
       ⟨"Equity:Rounding-Error", ⟨10, "USD"⟩, none, none, none, none⟩]⟩ := by
  simp [ImporterPlaid._invs_buy, cfgC4, secC4, tC4,
        ImporterPlaid.Config.default, ImporterPlaid.Config.make, secLookup,
        BAmount.neg, newMetadata, FLAG_OKAY, Bind.bind, Except.bind,
        Option.getD]
  norm_num

/-!  ## Claim C1: discrepancy routing in the buy/sell handler -/

/-- C1: for a buy/sell transaction whose resolved security is not in
the money-market set, the handler's postings are the cash posting, the
optional fee posting and the cost lot, followed by exactly one extra
posting of the discrepancy `amount − quantity×price` when it is
non-zero — to the gains/loss account when the type is `sell`, to the
rounding-error account otherwise — and no extra posting when it is
zero. -/
theorem C1_discrepancy_routing (cfg : ImporterPlaid.Config) (sec : Security)
    (t : PlaidInvTxn) (account filepath : String) (index : Nat)
    (hmm : sec.ticker_symbol.getD "unknown" ∉ cfg.money_market_funds) :
    (ImporterPlaid._invs_buy cfg [(t.security_id, sec)] account t filepath
        index).map (fun txn => txn.postings) =
    .ok
      ((⟨account, ⟨-(t.amount + t.fees), t.iso_currency_code⟩, none, none,
          none, none⟩ ::
        (if t.fees ≠ 0 then
          [⟨cfg.fees_account, ⟨t.fees, t.iso_currency_code⟩, none, none,
            none, none⟩]
         else []) ++
        [⟨cfg.account_name ++ ":" ++ sec.ticker_symbol.getD "unknown",
           ⟨t.quantity, sec.ticker_symbol.getD "unknown"⟩,
           some ⟨t.price, t.iso_currency_code, t.date⟩,
           some ⟨t.amount, t.iso_currency_code⟩, none,
           some [("plaid_id", MetaVal.s t.investment_transaction_id)]⟩]) ++
       (if t.amount - t.quantity * t.price = 0 then []
        else
          [⟨(if t.ttype = "sell" then cfg.gains_loss_account
             else cfg.rounding_account),
            ⟨t.amount - t.quantity * t.price, t.iso_currency_code⟩, none,
            none, none, none⟩])) := by
  have hmm2 := hmm
  rcases hst : sec.ticker_symbol with _ | tk <;>
    simp only [hst, Option.getD] at hmm2 <;>
    by_cases hf : t.fees = 0 <;>
    by_cases hd : t.amount - t.quantity * t.price = 0 <;>
    by_cases hsell : t.ttype = "sell" <;>
    · simp [ImporterPlaid._invs_buy, secLookup, BAmount.neg, Bind.bind,
            Except.bind, Except.map, Option.getD, hst, hmm2, hf, hd, hsell]

/-- Configuration for the C1 witness. -/
def cfgC1 : ImporterPlaid.Config :=
  ImporterPlaid.Config.default "Assets:Inv" "acct1"

/-- Security for the C1 witness. -/
def secC1 : Security :=
  ⟨"sec9", "Niche Fund", some "NF", false, 7, some 400, "USD"⟩

/-- A sell with a non-zero discrepancy: amount 71, quantity 10,
price 7. -/
def tC1 : PlaidInvTxn :=
  ⟨"tid9", "acct1", "sell", some "sell", 500, "sell nf", 71, 10, 7, 0,
   "USD", "sec9"⟩

/-- C1, witness: the routing theorem applied at a concrete sell. -/
theorem C1_discrepancy_routing_witness :
    (ImporterPlaid._invs_buy cfgC1 [(tC1.security_id, secC1)] "Acct" tC1
        "f.json" 0).map (fun txn => txn.postings) =
    .ok
      ((⟨"Acct", ⟨-(tC1.amount + tC1.fees), tC1.iso_currency_code⟩, none,
          none, none, none⟩ ::
        (if tC1.fees ≠ 0 then
          [⟨cfgC1.fees_account, ⟨tC1.fees, tC1.iso_currency_code⟩, none,
            none, none, none⟩]
         else []) ++
        [⟨cfgC1.account_name ++ ":" ++ secC1.ticker_symbol.getD "unknown",
           ⟨tC1.quantity, secC1.ticker_symbol.getD "unknown"⟩,
           some ⟨tC1.price, tC1.iso_currency_code, tC1.date⟩,
           some ⟨tC1.amount, tC1.iso_currency_code⟩, none,
           some [("plaid_id", MetaVal.s tC1.investment_transaction_id)]⟩]) ++
       (if tC1.amount - tC1.quantity * tC1.price = 0 then []
        else
          [⟨(if tC1.ttype = "sell" then cfgC1.gains_loss_account
             else cfgC1.rounding_account),
            ⟨tC1.amount - tC1.quantity * tC1.price, tC1.iso_currency_code⟩,
            none, none, none, none⟩])) :=
  C1_discrepancy_routing cfgC1 secC1 tC1 "Acct" "f.json" 0 (by decide)

/-!  ## Claim C7: the bank-path category account -/

/-- A non-pending bank transaction with category
`["Food", "Restaurants"]`. -/
def tC7 : PlaidBankTxn :=
  ⟨"btid1", "acct1", false, 300, "LUNCH SPOT", some "Lunch Spot", 12,
   "USD", ["Food", "Restaurants"]⟩

/-- C7, counterexample: the bank path joins the category components
with `':'`, so `["Food", "Restaurants"]` yields the expense account
`Expenses:Food:Restaurants`, not the claimed
`Expenses:Food-Restaurants`. -/
theorem C7_counterexample :
    (PlaidBank.extractTxns "Assets:Bank" "f.json" "USD" [tC7]).map
      (fun t => t.postings.map (·.account)) =
    [["Assets:Bank", "Expenses:Food:Restaurants"]] ∧
    ("Expenses:Food:Restaurants" : String) ≠ "Expenses:Food-Restaurants" := by
  constructor
  · simp [PlaidBank.extractTxns, PlaidBank.extractTxnOne, tC7, List.enum]
    decide
  · decide

/-!  ## Claim C3: the similarity comparator -/

/-- The ratio of two amounts normalized to be at least one (spec side;
meaningful when both are non-zero). -/
def normRatio (n1 n2 : ℚ) : ℚ :=
  let d := |n1 / n2|
  if d < 1 then 1 / d else d

/-- The claim's per-key matching condition: both amounts exactly zero,
or both non-zero with the normalized ratio within the strict 5%
tolerance. -/
def matchP (n1 n2 : ℚ) : Prop :=
  (n1 = 0 ∧ n2 = 0) ∨
  (n1 ≠ 0 ∧ n2 ≠ 0 ∧ normRatio n1 n2 - 1 < PlaidPy.EPSILON)

/-- The comparator's hidden abort condition: exactly one of the two
amounts is zero, which makes the computed ratio zero and returns false
for the whole comparison at once. -/
def abortP (n1 n2 : ℚ) : Prop :=
  (n1 = 0 ∧ n2 ≠ 0) ∨ (n1 ≠ 0 ∧ n2 = 0)

instance (n1 n2 : ℚ) : Decidable (matchP n1 n2) := by
  unfold matchP
  infer_instance

instance (n1 n2 : ℚ) : Decidable (abortP n1 n2) := by
  unfold abortP
  infer_instance

/-- The comparator's key loop, re-expressed over the list of looked-up
amount pairs. -/
def scanPairs : List (ℚ × ℚ) → Bool
  | [] => false
  | (n1, n2) :: rest =>
      if n1 = 0 ∧ n2 = 0 then true
      else
        let diff := if n2 ≠ 0 then |n1 / n2| else |n2 / n1|
        if diff = 0 then false
        else
          let diff := if diff < 1 then 1 / diff else diff
          if diff - 1 < PlaidPy.EPSILON then true else scanPairs rest

/-- The key loop equals the pair loop over the looked-up pairs. -/
theorem scanKeys_eq_scanPairs (a1 a2 : List (PlaidPy.AKey × ℚ)) :
    ∀ ks : List PlaidPy.AKey,
      PlaidPy.scanKeys a1 a2 ks =
        scanPairs (ks.map (fun k =>
          (PlaidPy.lookupAmt a1 k, PlaidPy.lookupAmt a2 k))) := by
  intro ks
  induction ks with
  | nil => rfl
  | cons k ks ih => simp [PlaidPy.scanKeys, scanPairs, ih]

/-- One step of the pair loop: match means similar, one-sided zero
means abort-as-dissimilar, anything else moves to the next pair. -/
theorem scanPairs_cons_matchP (n1 n2 : ℚ) (rest : List (ℚ × ℚ)) :
    scanPairs ((n1, n2) :: rest) =
      if matchP n1 n2 then true
      else if abortP n1 n2 then false
      else scanPairs rest := by
  by_cases h1 : n1 = 0 <;> by_cases h2 : n2 = 0
  · simp [scanPairs, h1, h2, matchP]
  · have hz : |n1 / n2| = 0 := by simp [h1]
    simp [scanPairs, h1, h2, matchP, abortP, hz]
  · have hz : |n2 / n1| = 0 := by simp [h2]
    simp [scanPairs, h1, h2, matchP, abortP, hz]
  · have hdne : ¬ |n1 / n2| = 0 := by
      simp [abs_eq_zero, div_eq_zero_iff, h1, h2]
    by_cases hm : normRatio n1 n2 - 1 < PlaidPy.EPSILON <;>
      · simp only [normRatio, one_div] at hm
        simp [scanPairs, h1, h2, matchP, abortP, hdne, normRatio, hm,
              one_div]

/-- The pair loop succeeds exactly when some pair matches and no
earlier pair matches or aborts. -/
theorem scanPairs_iff (zs : List (ℚ × ℚ)) :
    scanPairs zs = true ↔
      ∃ i, ∃ h : i < zs.length,
        matchP (zs.get ⟨i, h⟩).1 (zs.get ⟨i, h⟩).2 ∧
        ∀ j (hj : j < zs.length), j < i →
          ¬ matchP (zs.get ⟨j, hj⟩).1 (zs.get ⟨j, hj⟩).2 ∧
          ¬ abortP (zs.get ⟨j, hj⟩).1 (zs.get ⟨j, hj⟩).2 := by
  induction zs with
  | nil => simp [scanPairs]
  | cons z rest ih =>
      obtain ⟨n1, n2⟩ := z
      rw [scanPairs_cons_matchP]
      by_cases hm : matchP n1 n2
      · simp only [hm, if_true]
        constructor
        · intro _
          exact ⟨0, Nat.succ_pos _, hm, fun j hj hji =>
            absurd hji (Nat.not_lt_zero j)⟩
        · intro _
          trivial
      · by_cases ha : abortP n1 n2
        · simp only [hm, if_false, ha, if_true]
          constructor
          · intro h
            cases h
          · rintro ⟨i, hlt, hmatch, hall⟩
            cases i with
            | zero => exact absurd hmatch hm
            | succ i' =>
                exact absurd ha (hall 0 (Nat.succ_pos _)
                  (Nat.succ_pos i')).2
        · simp only [hm, if_false, ha, if_false]
          rw [ih]
          constructor
          · rintro ⟨i, hlt, hmatch, hall⟩
            refine ⟨i + 1, Nat.succ_lt_succ hlt, hmatch, ?_⟩
            intro j hj hji
            cases j with
            | zero => exact ⟨hm, ha⟩
            | succ j' =>
                exact hall j' (Nat.lt_of_succ_lt_succ hj)
                  (Nat.lt_of_succ_lt_succ hji)
          · rintro ⟨i, hlt, hmatch, hall⟩
            cases i with
            | zero => exact absurd hmatch hm
            | succ i' =>
                refine ⟨i', Nat.lt_of_succ_lt_succ hlt, hmatch, ?_⟩
                intro j hj hji
                exact hall (j + 1) (Nat.succ_lt_succ hj)
                  (Nat.succ_lt_succ hji)

/-- The looked-up amount pairs at the sorted shared keys of two
entries. -/
def sharedPairs (e1 e2 : BTransaction) : List (ℚ × ℚ) :=
  (PlaidPy.commonKeysSorted (PlaidPy.amounts_map e1)
    (PlaidPy.amounts_map e2)).map
    (fun k => (PlaidPy.lookupAmt (PlaidPy.amounts_map e1) k,
               PlaidPy.lookupAmt (PlaidPy.amounts_map e2) k))

/-- The claim's reading of similarity: SOME shared key matches
(both amounts zero, or ratio within tolerance) — with no proviso about
keys scanned before it. -/
def claimSimilar (e1 e2 : BTransaction) : Prop :=
  ∃ z ∈ sharedPairs e1 e2, matchP z.1 z.2

/-- First entry of the C3 counterexample: amounts 5 and 10 at two
keyed postings. -/
def e1C3 : BTransaction :=
  ⟨[("filename", MetaVal.s "f")], 100, "*", none, "a",
   [⟨"A", ⟨5, "USD"⟩, none, none, none,
      some [("plaid_id", MetaVal.s "")]⟩,
    ⟨"A", ⟨10, "USD"⟩, none, none, none,
      some [("plaid_id", MetaVal.s "y")]⟩]⟩

/-- Second entry of the C3 counterexample: amount 0 at the first
shared key, amount 10 (an exact match) at the second. -/
def e2C3 : BTransaction :=
  ⟨[("filename", MetaVal.s "g")], 100, "*", none, "b",
   [⟨"A", ⟨0, "USD"⟩, none, none, none,
      some [("plaid_id", MetaVal.s "")]⟩,
    ⟨"A", ⟨10, "USD"⟩, none, none, none,
      some [("plaid_id", MetaVal.s "y")]⟩]⟩

/-- C3, counterexample: the two entries share a key whose amounts are
exactly equal (10 and 10, ratio 1 — a match under the claim's
condition), yet the comparator returns false: the earlier shared key
in sorted order pairs 5 against 0, whose ratio is zero, and the scan
returns false for the whole comparison at that point instead of moving
on.  The claimed "similar iff some shared key matches" is refuted. -/
theorem C3_counterexample :
    PlaidPy.similarityCompare none e1C3 e2C3 = false ∧
    claimSimilar e1C3 e2C3 := by
  constructor
  · norm_num [PlaidPy.similarityCompare, PlaidPy.dateOk,
      scanKeys_eq_scanPairs, PlaidPy.commonKeysSorted, PlaidPy.amounts_map,
      PlaidPy.addToMap, PlaidPy.sortKeys, PlaidPy.insertSorted,
      PlaidPy.keyLe, PlaidPy.keyMem, PlaidPy.mvSortStr, pyStrLe, charListLe,
      PlaidPy.lookupAmt, metaHas, metaGet, e1C3, e2C3, scanPairs]
  · have hsp : sharedPairs e1C3 e2C3 = [(5, 0), (10, 10)] := by
      norm_num [sharedPairs, PlaidPy.commonKeysSorted, PlaidPy.amounts_map,
        PlaidPy.addToMap, PlaidPy.sortKeys, PlaidPy.insertSorted,
        PlaidPy.keyLe, PlaidPy.keyMem, PlaidPy.mvSortStr, pyStrLe,
        charListLe, PlaidPy.lookupAmt, metaHas, metaGet, e1C3, e2C3]
      all_goals decide
    refine ⟨(10, 10), ?_, ?_⟩
    · rw [hsp]
      simp
    · norm_num [matchP, normRatio, PlaidPy.EPSILON]

/-- C3, amended: with dates within tolerance (or none configured), the
comparator returns true iff at some position of the sorted shared-key
pair list the pair matches (both zero, or normalized ratio strictly
within 5%) AND every earlier position neither matches nor has exactly
one zero amount — a one-sided zero aborts the whole comparison as
dissimilar; moreover the tolerance is strict: a 5% or 6% amount
difference does not match, while 4% does. -/
theorem C3_amended_first_hit (tol : Option Int) (e1 e2 : BTransaction)
    (hdate : PlaidPy.dateOk tol e1 e2 = true) :
    (PlaidPy.similarityCompare tol e1 e2 = true ↔
      ∃ i, ∃ h : i < (sharedPairs e1 e2).length,
        matchP ((sharedPairs e1 e2).get ⟨i, h⟩).1
          ((sharedPairs e1 e2).get ⟨i, h⟩).2 ∧
        ∀ j (hj : j < (sharedPairs e1 e2).length), j < i →
          ¬ matchP ((sharedPairs e1 e2).get ⟨j, hj⟩).1
              ((sharedPairs e1 e2).get ⟨j, hj⟩).2 ∧
          ¬ abortP ((sharedPairs e1 e2).get ⟨j, hj⟩).1
              ((sharedPairs e1 e2).get ⟨j, hj⟩).2) ∧
    ¬ matchP (105 : ℚ) 100 ∧
    ¬ matchP (106 : ℚ) 100 ∧
    matchP (104 : ℚ) 100 := by
  refine ⟨?_, ?_, ?_, ?_⟩
  · unfold PlaidPy.similarityCompare
    rw [hdate]
    simp only [Bool.not_true, Bool.false_eq_true, if_false]
    rw [scanKeys_eq_scanPairs]
    exact scanPairs_iff _
  · unfold matchP normRatio
    rw [abs_of_pos (by norm_num : (0:ℚ) < 105/100)]
    norm_num [PlaidPy.EPSILON]
  · unfold matchP normRatio
    rw [abs_of_pos (by norm_num : (0:ℚ) < 106/100)]
    norm_num [PlaidPy.EPSILON]
  · unfold matchP normRatio
    rw [abs_of_pos (by norm_num : (0:ℚ) < 104/100)]
    norm_num [PlaidPy.EPSILON]

/-- First entry of the C3 witness: one keyed posting of 10 USD. -/
def e1C3w : BTransaction :=
  ⟨[("filename", MetaVal.s "f")], 100, "*", none, "w",
   [⟨"A", ⟨10, "USD"⟩, none, none, none,
      some [("plaid_id", MetaVal.s "x")]⟩]⟩

/-- Second entry of the C3 witness: the same keyed amount. -/
def e2C3w : BTransaction :=
  ⟨[("filename", MetaVal.s "g")], 100, "*", none, "w2",
   [⟨"A", ⟨10, "USD"⟩, none, none, none,
      some [("plaid_id", MetaVal.s "x")]⟩]⟩

/-- C3, witness: the amended characterization applied at two concrete
entries with one exactly matching shared key. -/
theorem C3_amended_first_hit_witness :
    PlaidPy.dateOk none e1C3w e2C3w = true ∧
    PlaidPy.similarityCompare none e1C3w e2C3w = true := by
  have h := C3_amended_first_hit none e1C3w e2C3w rfl
  refine ⟨rfl, ?_⟩
  apply h.1.mpr
  have hsp : sharedPairs e1C3w e2C3w = [(10, 10)] := by
    norm_num [sharedPairs, PlaidPy.commonKeysSorted, PlaidPy.amounts_map,
      PlaidPy.addToMap, PlaidPy.sortKeys, PlaidPy.insertSorted,
      PlaidPy.keyLe, PlaidPy.keyMem, PlaidPy.mvSortStr, pyStrLe, charListLe,
      PlaidPy.lookupAmt, metaHas, metaGet, e1C3w, e2C3w]
  rw [hsp]
  refine ⟨0, by norm_num, ?_, fun j hj hji => absurd hji (Nat.not_lt_zero j)⟩
  show matchP 10 10
  norm_num [matchP, normRatio, PlaidPy.EPSILON]

/-!  ## Claim C10: deduplicate is a pure marking pass -/

/-- Whether a posting carries a `transaction_id` that is among the
existing ledger's ids (spec side of the duplicate test). -/
def postingDupB (ids : List MetaVal) (p : Posting) : Bool :=
  match p.meta with
  | none => false
  | some md =>
      match metaGet md "transaction_id" with
      | none => false
      | some v => decide (v ∈ ids)

/-- Mark a transaction as a duplicate: set `__duplicate__ := True` in
its metadata, touching nothing else. -/
def markDup (t : BTransaction) : BTransaction :=
  { t with
    meta := metaInsert t.meta PlaidInvestment.DUPLICATE (MetaVal.b true) }

/-- Inserting the same key/value twice is the same as inserting it
once. -/
theorem metaInsert_idem (m : Meta) (k : String) (v : MetaVal) :
    metaInsert (metaInsert m k v) k v = metaInsert m k v := by
  induction m with
  | nil => simp [metaInsert]
  | cons kv rest ih =>
      obtain ⟨k', v'⟩ := kv
      by_cases h : k' = k <;> simp [metaInsert, h, ih]

/-- Marking twice equals marking once. -/
theorem markDup_idem (t : BTransaction) : markDup (markDup t) = markDup t := by
  simp [markDup, metaInsert_idem]

/-- The inner posting loop of `deduplicate` marks the entry iff some
posting carries a known `transaction_id`, and does nothing else. -/
theorem markTxn_eq (ids : List MetaVal) (t : BTransaction) :
    PlaidInvestment.markTxn ids t =
      if t.postings.any (postingDupB ids) then markDup t else t := by
  show List.foldl _ t t.postings = _
  generalize t.postings = ps
  induction ps generalizing t with
  | nil => simp
  | cons p ps ih =>
      simp only [List.foldl_cons, List.any_cons]
      rcases hm : p.meta with _ | md
      · simpa [postingDupB, hm] using ih t
      · rcases hg : metaGet md "transaction_id" with _ | v
        · simpa [postingDupB, hm, hg] using ih t
        · by_cases hv : v ∈ ids
          · have hpd : postingDupB ids p = true := by
              simp [postingDupB, hm, hg, hv]
            simp only [hm, hg]
            rw [if_pos hv]
            have hstep := ih (markDup t)
            simp only [markDup] at hstep
            rw [hstep]
            simp only [hpd, Bool.true_or, if_true]
            split_ifs <;> simp [markDup, metaInsert_idem]
          · simpa [postingDupB, hm, hg, hv] using ih t

/-- The ids collected from one posting list, with an arbitrary
already-collected prefix. -/
theorem postingIds_go (ps : List Posting) :
    ∀ acc : List MetaVal, (∀ p ∈ ps, p.meta ≠ none) →
    ∃ ids,
      ps.foldlM (fun ids p =>
        match p.meta with
        | none => Except.error PyErr.typeError
        | some md =>
            match metaGet md "transaction_id" with
            | some v => Except.ok (ids ++ [v])
            | none => Except.ok ids) acc = .ok ids ∧
      ∀ v, v ∈ ids ↔ v ∈ acc ∨ ∃ p ∈ ps, ∃ md, p.meta = some md ∧
        metaGet md "transaction_id" = some v := by
  induction ps with
  | nil =>
      intro acc _
      exact ⟨acc, rfl, by simp⟩
  | cons p ps ih =>
      intro acc hmeta
      rcases hm : p.meta with _ | md
      · exact absurd hm (hmeta p (List.mem_cons_self p ps))
      · have hrest : ∀ q ∈ ps, q.meta ≠ none :=
          fun q hq => hmeta q (List.mem_cons_of_mem p hq)
        rcases hg : metaGet md "transaction_id" with _ | v
        · obtain ⟨ids, hfold, hiff⟩ := ih acc hrest
          refine ⟨ids, by simp [List.foldlM_cons, hm, hg, Bind.bind,
            Except.bind, hfold], ?_⟩
          intro w
          rw [hiff w]
          constructor
          · rintro (hw | ⟨q, hq, hrest'⟩)
            · exact Or.inl hw
            · exact Or.inr ⟨q, List.mem_cons_of_mem p hq, hrest'⟩
          · rintro (hw | ⟨q, hq, md', hmd', hv'⟩)
            · exact Or.inl hw
            · rcases List.mem_cons.mp hq with rfl | hq2
              · rw [hm] at hmd'
                cases hmd'
                rw [hg] at hv'
                cases hv'
              · exact Or.inr ⟨q, hq2, md', hmd', hv'⟩
        · obtain ⟨ids, hfold, hiff⟩ := ih (acc ++ [v]) hrest
          refine ⟨ids, by simp [List.foldlM_cons, hm, hg, Bind.bind,
            Except.bind, hfold], ?_⟩
          intro w
          rw [hiff w]
          constructor
          · rintro (hw | hw)
            · rcases List.mem_append.mp hw with hw2 | hw2
              · exact Or.inl hw2
              · refine Or.inr ⟨p, List.mem_cons_self p ps, md, hm, ?_⟩
                simp at hw2
                rw [hw2]
                exact hg
            · obtain ⟨q, hq, hrest'⟩ := hw
              exact Or.inr ⟨q, List.mem_cons_of_mem p hq, hrest'⟩
          · rintro (hw | ⟨q, hq, md', hmd', hv'⟩)
            · exact Or.inl (List.mem_append.mpr (Or.inl hw))
            · rcases List.mem_cons.mp hq with rfl | hq2
              · rw [hm] at hmd'
                cases hmd'
                rw [hg] at hv'
                cases hv'
                exact Or.inl (List.mem_append.mpr (Or.inr (by simp)))
              · exact Or.inr ⟨q, hq2, md', hmd', hv'⟩

/-- The ids collected from the whole existing ledger, with an
arbitrary already-collected prefix. -/
theorem existingIds_go (existing : List Entry) :
    ∀ acc : List MetaVal,
      (∀ t : BTransaction, Entry.txn t ∈ existing →
        ∀ p ∈ t.postings, p.meta ≠ none) →
    ∃ ids,
      existing.foldlM (fun ids e =>
        match e with
        | .txn t => do
            let more ← PlaidInvestment.postingIds t.postings
            pure (ids ++ more)
        | _ => pure ids) acc = .ok ids ∧
      ∀ v, v ∈ ids ↔ v ∈ acc ∨ ∃ t : BTransaction, Entry.txn t ∈ existing ∧
        ∃ p ∈ t.postings, ∃ md, p.meta = some md ∧
          metaGet md "transaction_id" = some v := by
  induction existing with
  | nil =>
      intro acc _
      exact ⟨acc, rfl, by simp⟩
  | cons e es ih =>
      intro acc hmeta
      have hrest : ∀ t : BTransaction, Entry.txn t ∈ es →
          ∀ p ∈ t.postings, p.meta ≠ none :=
        fun t ht => hmeta t (List.mem_cons_of_mem e ht)
      rcases e with t | b | pr | _
      · obtain ⟨more, hpost, hpiff⟩ :=
          postingIds_go t.postings []
            (hmeta t (List.mem_cons_self _ _))
        obtain ⟨ids, hfold, hiff⟩ := ih (acc ++ more) hrest
        refine ⟨ids, ?_, ?_⟩
        · simpa [List.foldlM_cons, Bind.bind, Except.bind,
                 PlaidInvestment.postingIds, hpost, pure, Except.pure]
            using hfold
        · intro w
          rw [hiff w]
          constructor
          · rintro (hw | ⟨t', ht', hrest'⟩)
            · rcases List.mem_append.mp hw with hw2 | hw2
              · exact Or.inl hw2
              · have := (hpiff w).mp hw2
                rcases this with h0 | hp
                · cases h0
                · exact Or.inr ⟨t, List.mem_cons_self _ _, hp⟩
            · exact Or.inr ⟨t', List.mem_cons_of_mem _ ht', hrest'⟩
          · rintro (hw | ⟨t', ht', hp⟩)
            · exact Or.inl (List.mem_append.mpr (Or.inl hw))
            · rcases List.mem_cons.mp ht' with heq | ht2
              · cases heq
                exact Or.inl (List.mem_append.mpr
                  (Or.inr ((hpiff w).mpr (Or.inr hp))))
              · exact Or.inr ⟨t', ht2, hp⟩
      · obtain ⟨ids, hfold, hiff⟩ := ih acc hrest
        refine ⟨ids, by simpa [List.foldlM_cons, Bind.bind, Except.bind,
          pure, Except.pure] using hfold, ?_⟩
        intro w
        rw [hiff w]
        constructor
        · rintro (hw | ⟨t', ht', hp⟩)
          · exact Or.inl hw
          · exact Or.inr ⟨t', List.mem_cons_of_mem _ ht', hp⟩
        · rintro (hw | ⟨t', ht', hp⟩)
          · exact Or.inl hw
          · rcases List.mem_cons.mp ht' with heq | ht2
            · cases heq
            · exact Or.inr ⟨t', ht2, hp⟩
      · obtain ⟨ids, hfold, hiff⟩ := ih acc hrest
        refine ⟨ids, by simpa [List.foldlM_cons, Bind.bind, Except.bind,
          pure, Except.pure] using hfold, ?_⟩
        intro w
        rw [hiff w]
        constructor
        · rintro (hw | ⟨t', ht', hp⟩)
          · exact Or.inl hw
          · exact Or.inr ⟨t', List.mem_cons_of_mem _ ht', hp⟩
        · rintro (hw | ⟨t', ht', hp⟩)
          · exact Or.inl hw
          · rcases List.mem_cons.mp ht' with heq | ht2
            · cases heq
            · exact Or.inr ⟨t', ht2, hp⟩
      · obtain ⟨ids, hfold, hiff⟩ := ih acc hrest
        refine ⟨ids, by simpa [List.foldlM_cons, Bind.bind, Except.bind,
          pure, Except.pure] using hfold, ?_⟩
        intro w
        rw [hiff w]
        constructor
        · rintro (hw | ⟨t', ht', hp⟩)
          · exact Or.inl hw
          · exact Or.inr ⟨t', List.mem_cons_of_mem _ ht', hp⟩
        · rintro (hw | ⟨t', ht', hp⟩)
          · exact Or.inl hw
          · rcases List.mem_cons.mp ht' with heq | ht2
            · cases heq
            · exact Or.inr ⟨t', ht2, hp⟩

/-- C10: given an existing ledger whose transaction postings all carry
metadata maps (as beancount-parsed ledgers do), `deduplicate` returns a
list of exactly the length and order of its input; each returned entry
equals the corresponding input entry, except that a transaction with
some posting whose `transaction_id` occurs among the existing ledger's
posting `transaction_id`s gets `__duplicate__ := True` added to its
metadata; non-transactions and all other fields pass through
unchanged. -/
theorem C10_deduplicate_frame (entries existing : List Entry)
    (hmeta : ∀ t : BTransaction, Entry.txn t ∈ existing →
      ∀ p ∈ t.postings, p.meta ≠ none) :
    ∃ ids out,
      PlaidInvestment.existingIds existing = .ok ids ∧
      (∀ v, v ∈ ids ↔ ∃ t : BTransaction, Entry.txn t ∈ existing ∧
        ∃ p ∈ t.postings, ∃ md, p.meta = some md ∧
          metaGet md "transaction_id" = some v) ∧
      PlaidInvestment.deduplicate entries existing = .ok out ∧
      out.length = entries.length ∧
      ∀ i (hi : i < entries.length) (ho : i < out.length),
        out.get ⟨i, ho⟩ =
          match entries.get ⟨i, hi⟩ with
          | .txn t =>
              if t.postings.any (postingDupB ids) then .txn (markDup t)
              else .txn t
          | e => e := by
  obtain ⟨ids, hfold, hiff⟩ := existingIds_go existing [] hmeta
  have hex : PlaidInvestment.existingIds existing = .ok ids := hfold
  refine ⟨ids, entries.map (fun e =>
    match e with
    | .txn t => .txn (PlaidInvestment.markTxn ids t)
    | e => e), hex, ?_, ?_, by simp, ?_⟩
  · intro v
    rw [hiff v]
    simp
  · unfold PlaidInvestment.deduplicate
    rw [hex]
    rfl
  · intro i hi ho
    rw [List.get_map]
    rcases entries.get ⟨i, hi⟩ with t | b | pr | _
    · show Entry.txn (PlaidInvestment.markTxn ids t) = _
      rw [markTxn_eq]
      exact apply_ite Entry.txn _ _ _
    · rfl
    · rfl
    · rfl

/-- A fresh entry carrying `transaction_id` `dup1`. -/
def entC10 : Entry :=
  .txn ⟨[("filename", MetaVal.s "f")], 10, "*", none, "x",
    [⟨"A:B", ⟨1, "USD"⟩, none, none, none,
      some [("transaction_id", MetaVal.s "dup1")]⟩]⟩

/-- An existing-ledger entry carrying the same `transaction_id`. -/
def exC10 : Entry :=
  .txn ⟨[("filename", MetaVal.s "g")], 9, "*", none, "y",
    [⟨"A:B", ⟨1, "USD"⟩, none, none, none,
      some [("transaction_id", MetaVal.s "dup1")]⟩]⟩

/-- C10, witness: the frame theorem applied at a concrete
one-entry/one-existing input. -/
theorem C10_deduplicate_frame_witness :
    ∃ out, PlaidInvestment.deduplicate [entC10] [exC10] = .ok out ∧
      out.length = 1 := by
  obtain ⟨ids, out, hex, hiff, hded, hlen, hget⟩ :=
    C10_deduplicate_frame [entC10] [exC10] (by
      intro t ht p hp
      simp [exC10] at ht
      subst ht
      simp at hp
      subst hp
      simp)
  exact ⟨out, hded, by simp [hlen]⟩

/-!  ## Claim C5: last-write-wins security merging -/

/-- Lookup after a single dict insert. -/
theorem secLookupO_secInsert (tbl : List (String × Security))
    (k id : String) (s : Security) :
    secLookupO (secInsert tbl k s) id =
      if k = id then some s else secLookupO tbl id := by
  induction tbl with
  | nil =>
      by_cases h : k = id
      · simp [secInsert, secLookupO, List.find?, h]
      · have hb : (k == id) = false := by simp [h]
        simp [secInsert, secLookupO, List.find?, h, hb]
  | cons kv rest ih =>
      obtain ⟨k', v'⟩ := kv
      by_cases h1 : k' = k
      · subst h1
        by_cases h2 : k' = id
        · have hb : (k' == id) = true := by simp [h2]
          simp [secInsert, secLookupO, List.find?, hb, h2]
        · have hb : (k' == id) = false := by simp [h2]
          simp [secInsert, secLookupO, List.find?, hb, h2]
      · by_cases h2 : k' = id
        · subst h2
          have hk : ¬ k = k' := fun hh => h1 hh.symm
          have hb : (k' == k') = true := by simp
          simp [secInsert, secLookupO, List.find?, h1, hk, hb]
        · have hb : (k' == id) = false := by simp [h2]
          simp only [secInsert, if_neg h1, secLookupO, List.find?, hb] at ih ⊢
          exact ih

/-- Lookup after folding a securities list into a table: the last
record with the identifier wins, else the initial table answers. -/
theorem secLookupO_fold (l : List Security)
    (init : List (String × Security)) (id : String) :
    secLookupO (l.foldl (fun tbl s => secInsert tbl s.security_id s) init)
        id =
      match lastWithId l id with
      | some r => some r
      | none => secLookupO init id := by
  induction l generalizing init with
  | nil => simp [lastWithId]
  | cons s rest ih =>
      simp only [List.foldl_cons, lastWithId]
      rw [ih]
      cases h : lastWithId rest id with
      | none =>
          by_cases h2 : s.security_id = id <;>
            simp [secLookupO_secInsert, h, h2]
      | some r => simp [h]

/-- The security record of the C5 example that lacks a symbol. -/
def secS1none : Security :=
  ⟨"S1", "Some Fund", none, true, 1, some 100, "USD"⟩

/-- The security record of the C5 example that carries symbol `ABC`. -/
def secS1abc : Security :=
  ⟨"S1", "Some Fund", some "ABC", true, 1, some 200, "USD"⟩

/-- C5: merging securities from the holdings section and then the
investment-transactions section is last-write-wins — for every
identifier the merged table answers with the last record of the later
source, falling back to the last record of the earlier source; the
single-list table builder likewise keeps the last record per
identifier; and in the concrete example the symbol-less record for `S1`
is overwritten by the later record with symbol `ABC`. -/
theorem C5_last_write_wins :
    (∀ (hs ts : List Security) (id : String),
       secLookupO (ImporterPlaid._get_securities hs ts) id =
         match lastWithId ts id with
         | some r => some r
         | none => lastWithId hs id) ∧
    (∀ (l : List Security) (id : String),
       secLookupO (buildSecurityTable l) id = lastWithId l id) ∧
    (secLookupO (ImporterPlaid._get_securities [secS1none] [secS1abc])
        "S1").map (·.ticker_symbol) = some (some "ABC") := by
  refine ⟨?_, ?_, ?_⟩
  · intro hs ts id
    show secLookupO
        (ts.foldl (fun tbl s => secInsert tbl s.security_id s)
          (hs.foldl (fun tbl s => secInsert tbl s.security_id s) [])) id = _
    rw [secLookupO_fold]
    cases lastWithId ts id with
    | none =>
        rw [secLookupO_fold]
        cases h : lastWithId hs id <;> simp [secLookupO, List.find?]
    | some r => rfl
  · intro l id
    show secLookupO
        (l.foldl (fun tbl s => secInsert tbl s.security_id s) []) id = _
    rw [secLookupO_fold]
    cases h : lastWithId l id <;> simp [secLookupO, List.find?]
  · decide

/-!  ## Claim C8: unsupported investment transactions -/

/-- The substring scan agrees with list-infix containment. -/
theorem containsSeq_iff (n : List Char) :
    ∀ h : List Char, containsSeq n h = true ↔ n <:+: h := by
  intro h
  induction h with
  | nil => simp [containsSeq]
  | cons c rest ih =>
      simp [containsSeq, ih, List.infix_cons_iff]

/-- A string is contained in any concatenation that embeds it. -/
theorem strContainsSub_append (a b c : String) :
    strContainsSub (a ++ b ++ c) b = true := by
  rw [strContainsSub, containsSeq_iff]
  exact ⟨a.toList, c.toList, by simp⟩

/-- If some record of the enumerated list has no dispatch-table handler
or the explicit unknown handler, the extraction loop returns an
error. -/
theorem extractInvestmentsLoop_error_of_mem (cfg : ImporterPlaid.Config)
    (secs : List (String × Security)) (filepath : String) :
    ∀ l : List (Nat × PlaidInvTxn),
      (∃ it ∈ l,
        ImporterPlaid.inv_trans_cb it.2.ttype it.2.subtype = none ∨
        ImporterPlaid.inv_trans_cb it.2.ttype it.2.subtype =
          some ImporterPlaid.HandlerTag.unknown) →
      ∃ e, ImporterPlaid.extractInvestmentsLoop cfg secs filepath l =
        .error e := by
  intro l
  induction l with
  | nil =>
      rintro ⟨it, hmem, _⟩
      cases hmem
  | cons hd tl ih =>
      rintro ⟨it, hmem, hbad⟩
      obtain ⟨idx, tt⟩ := hd
      rcases List.mem_cons.mp hmem with heq | hmem2
      · subst heq
        rcases hbad with hnone | hunk
        · refine ⟨.notImplementedError
            ("Unknown Transaction Type - " ++ tt.ttype ++ ":" ++
             ImporterPlaid.optStr tt.subtype ++ " "), ?_⟩
          simp at hnone
          simp [ImporterPlaid.extractInvestmentsLoop, hnone, Bind.bind,
                Except.bind]
        · refine ⟨.notImplementedError
            ("Id: " ++ tt.investment_transaction_id ++
             " investment transaction not supported, type: " ++ tt.ttype ++
             ", Subtype: " ++ ImporterPlaid.optStr tt.subtype), ?_⟩
          simp at hunk
          simp [ImporterPlaid.extractInvestmentsLoop, hunk,
                ImporterPlaid.runHandler, ImporterPlaid.unknown_transaction,
                Bind.bind, Except.bind, pure, Except.pure]
      · rcases ih ⟨it, hmem2, hbad⟩ with ⟨e, he⟩
        rcases hhd : ImporterPlaid.inv_trans_cb tt.ttype tt.subtype
          with _ | tag
        · exact ⟨.notImplementedError
            ("Unknown Transaction Type - " ++ tt.ttype ++ ":" ++
             ImporterPlaid.optStr tt.subtype ++ " "), by
            simp [ImporterPlaid.extractInvestmentsLoop, hhd, Bind.bind,
                  Except.bind]⟩
        · rcases hrun : ImporterPlaid.runHandler cfg secs tag tt filepath
              idx with e2 | txn
          · exact ⟨e2, by
              simp [ImporterPlaid.extractInvestmentsLoop, hhd, hrun,
                    Bind.bind, Except.bind, pure, Except.pure]⟩
          · rcases hexc : ImporterPlaid.excludedDesc cfg.exclude_descriptions
                txn.narration with e3 | b
            · exact ⟨e3, by
                simp [ImporterPlaid.extractInvestmentsLoop, hhd, hrun, hexc,
                      Bind.bind, Except.bind, pure, Except.pure]⟩
            · exact ⟨e, by
                simp [ImporterPlaid.extractInvestmentsLoop, hhd, hrun, hexc,
                      Bind.bind, Except.bind, pure, Except.pure, he]⟩

/-- An unhandled (type, subtype) pair in the dispatch table. -/
def tC8 : PlaidInvTxn :=
  ⟨"txid1", "acct1", "foo", some "bar", 500, "weird txn", 1, 0, 0, 0,
   "USD", "sec1"⟩

/-- Configuration for the C8 counterexample. -/
def cfgC8 : ImporterPlaid.Config :=
  ImporterPlaid.Config.default "Assets:Inv" "acct1"

/-- C8, counterexample: a transaction whose (type, subtype) pair is
absent from the dispatch table aborts extraction with the message
`Unknown Transaction Type - foo:bar `, which does NOT include the
transaction id `txid1`; the claim's "message includes the transaction
id" fails in the missing-pair branch. -/
theorem C8_counterexample :
    ImporterPlaid._extract_investments cfgC8 [] "f.json" [tC8] =
      .error (.notImplementedError "Unknown Transaction Type - foo:bar ") ∧
    strContainsSub "Unknown Transaction Type - foo:bar " "txid1" = false := by
  constructor
  · decide
  · decide

/-- C8, amended: a batch whose (account-filtered) transactions include
one with no dispatch-table handler or with the explicit
unknown-transaction handler never yields an entry list — extraction
returns an error; a missing-pair record aborts with a message carrying
the type and the subtype (but not the transaction id); a record
dispatched to the unknown-transaction handler aborts with a message
carrying the transaction id, the type and the subtype. -/
theorem C8_amended_unsupported (cfg : ImporterPlaid.Config)
    (secs : List (String × Security)) (filepath : String)
    (ts : List PlaidInvTxn) (i : Nat) (t : PlaidInvTxn)
    (rest : List (Nat × PlaidInvTxn)) :
    ((∃ it ∈ ImporterPlaid.enumerateInv cfg ts,
        ImporterPlaid.inv_trans_cb it.2.ttype it.2.subtype = none ∨
        ImporterPlaid.inv_trans_cb it.2.ttype it.2.subtype =
          some ImporterPlaid.HandlerTag.unknown) →
      ∃ e, ImporterPlaid._extract_investments cfg secs filepath ts =
        .error e) ∧
    (ImporterPlaid.inv_trans_cb t.ttype t.subtype = none →
      ImporterPlaid.extractInvestmentsLoop cfg secs filepath
          ((i, t) :: rest) =
        .error (.notImplementedError
          ("Unknown Transaction Type - " ++ t.ttype ++ ":" ++
           ImporterPlaid.optStr t.subtype ++ " ")) ∧
      strContainsSub
        ("Unknown Transaction Type - " ++ t.ttype ++ ":" ++
         ImporterPlaid.optStr t.subtype ++ " ") t.ttype = true ∧
      strContainsSub
        ("Unknown Transaction Type - " ++ t.ttype ++ ":" ++
         ImporterPlaid.optStr t.subtype ++ " ")
        (ImporterPlaid.optStr t.subtype) = true) ∧
    (ImporterPlaid.inv_trans_cb t.ttype t.subtype =
        some ImporterPlaid.HandlerTag.unknown →
      ImporterPlaid.extractInvestmentsLoop cfg secs filepath
          ((i, t) :: rest) =
        .error (.notImplementedError
          ("Id: " ++ t.investment_transaction_id ++
           " investment transaction not supported, type: " ++ t.ttype ++
           ", Subtype: " ++ ImporterPlaid.optStr t.subtype)) ∧
      strContainsSub
        ("Id: " ++ t.investment_transaction_id ++
         " investment transaction not supported, type: " ++ t.ttype ++
         ", Subtype: " ++ ImporterPlaid.optStr t.subtype)
        t.investment_transaction_id = true ∧
      strContainsSub
        ("Id: " ++ t.investment_transaction_id ++
         " investment transaction not supported, type: " ++ t.ttype ++
         ", Subtype: " ++ ImporterPlaid.optStr t.subtype) t.ttype = true ∧
      strContainsSub
        ("Id: " ++ t.investment_transaction_id ++
         " investment transaction not supported, type: " ++ t.ttype ++
         ", Subtype: " ++ ImporterPlaid.optStr t.subtype)
        (ImporterPlaid.optStr t.subtype) = true) := by
  refine ⟨?_, ?_, ?_⟩
  · intro hex
    exact extractInvestmentsLoop_error_of_mem cfg secs filepath
      (ImporterPlaid.enumerateInv cfg ts) hex
  · intro hnone
    refine ⟨by simp [ImporterPlaid.extractInvestmentsLoop, hnone, Bind.bind,
                     Except.bind], ?_, ?_⟩
    · have h := strContainsSub_append "Unknown Transaction Type - " t.ttype
        (":" ++ ImporterPlaid.optStr t.subtype ++ " ")
      simpa [String.append_assoc] using h
    · have h := strContainsSub_append
        ("Unknown Transaction Type - " ++ t.ttype ++ ":")
        (ImporterPlaid.optStr t.subtype) " "
      simpa [String.append_assoc] using h
  · intro hunk
    refine ⟨by simp [ImporterPlaid.extractInvestmentsLoop, hunk,
                     ImporterPlaid.runHandler,
                     ImporterPlaid.unknown_transaction, Bind.bind,
                     Except.bind, pure, Except.pure], ?_, ?_, ?_⟩
    · have h := strContainsSub_append "Id: " t.investment_transaction_id
        (" investment transaction not supported, type: " ++ t.ttype ++
         ", Subtype: " ++ ImporterPlaid.optStr t.subtype)
      simpa [String.append_assoc] using h
    · have h := strContainsSub_append
        ("Id: " ++ t.investment_transaction_id ++
         " investment transaction not supported, type: ") t.ttype
        (", Subtype: " ++ ImporterPlaid.optStr t.subtype)
      simpa [String.append_assoc] using h
    · have h := strContainsSub_append
        ("Id: " ++ t.investment_transaction_id ++
         " investment transaction not supported, type: " ++ t.ttype ++
         ", Subtype: ") (ImporterPlaid.optStr t.subtype) ""
      simpa [String.append_assoc] using h

/-- C8, witness: the amended theorem applied at the concrete
unsupported transaction (and at a cancel transaction dispatched to the
explicit unknown handler). -/
theorem C8_amended_unsupported_witness :
    (∃ e, ImporterPlaid._extract_investments cfgC8 [] "f.json" [tC8] =
      .error e) ∧
    strContainsSub "Unknown Transaction Type - foo:bar " "foo" = true ∧
    strContainsSub "Unknown Transaction Type - foo:bar " "bar" = true := by
  have h := C8_amended_unsupported cfgC8 [] "f.json" [tC8] 0 tC8 []
  refine ⟨h.1 ⟨(0, tC8), by decide, Or.inl (by decide)⟩, ?_, ?_⟩
  · exact (h.2.1 (by decide)).2.1
  · exact (h.2.1 (by decide)).2.2

/-!  ## Claim C9: the default exclude_descriptions of None -/

/-- With `exclude_descriptions = None`, the investment loop can never
get past its first record: every branch errors. -/
theorem extractInvestmentsLoop_none_excl_error (cfg : ImporterPlaid.Config)
    (hexc : cfg.exclude_descriptions = none)
    (secs : List (String × Security)) (filepath : String) (i : Nat)
    (t : PlaidInvTxn) (rest : List (Nat × PlaidInvTxn)) :
    ∃ e, ImporterPlaid.extractInvestmentsLoop cfg secs filepath
      ((i, t) :: rest) = .error e := by
  rcases hhd : ImporterPlaid.inv_trans_cb t.ttype t.subtype with _ | tag
  · exact ⟨.notImplementedError
      ("Unknown Transaction Type - " ++ t.ttype ++ ":" ++
       ImporterPlaid.optStr t.subtype ++ " "), by
      simp [ImporterPlaid.extractInvestmentsLoop, hhd, Bind.bind,
            Except.bind]⟩
  · rcases hrun : ImporterPlaid.runHandler cfg secs tag t filepath i
      with e2 | txn
    · exact ⟨e2, by
        simp [ImporterPlaid.extractInvestmentsLoop, hhd, hrun, Bind.bind,
              Except.bind, pure, Except.pure]⟩
    · exact ⟨.typeError, by
        simp [ImporterPlaid.extractInvestmentsLoop, hhd, hrun,
              ImporterPlaid.excludedDesc, hexc, Bind.bind, Except.bind,
              pure, Except.pure]⟩

/-- C9, amended: under the default configuration (no
`exclude_descriptions`), extraction raises once the batch carries at
least one non-pending bank transaction OF THE CONFIGURED ACCOUNT (a
`TypeError` from iterating over `None`), or at least one investment
transaction of the configured account (a `TypeError` after any
successfully handled record, some earlier error otherwise); extraction
never returns a non-empty entry list. -/
theorem C9_amended_default_raises (account_name account_id filepath : String)
    (bts : List PlaidBankTxn) (secs : List (String × Security))
    (its : List PlaidInvTxn) :
    (ImporterPlaid.enumerateBank
        (ImporterPlaid.Config.default account_name account_id) bts ≠ [] →
      ImporterPlaid._extract_bank
          (ImporterPlaid.Config.default account_name account_id) filepath
          bts = .error .typeError) ∧
    (∀ l, ImporterPlaid._extract_bank
        (ImporterPlaid.Config.default account_name account_id) filepath
        bts = .ok l → l = []) ∧
    (ImporterPlaid.enumerateInv
        (ImporterPlaid.Config.default account_name account_id) its ≠ [] →
      ∃ e, ImporterPlaid._extract_investments
          (ImporterPlaid.Config.default account_name account_id) secs
          filepath its = .error e) ∧
    (∀ l, ImporterPlaid._extract_investments
        (ImporterPlaid.Config.default account_name account_id) secs
        filepath its = .ok l → l = []) := by
  have hexc : (ImporterPlaid.Config.default account_name
      account_id).exclude_descriptions = none := rfl
  have hbank : ∀ i (t : PlaidBankTxn) rest,
      ImporterPlaid.extractBankLoop
          (ImporterPlaid.Config.default account_name account_id) filepath
          ((i, t) :: rest) = .error .typeError := by
    intro i t rest
    simp [ImporterPlaid.extractBankLoop, ImporterPlaid.excludedDesc, hexc,
          Bind.bind, Except.bind]
  refine ⟨?_, ?_, ?_, ?_⟩
  · intro hne
    unfold ImporterPlaid._extract_bank
    rcases h : ImporterPlaid.enumerateBank
        (ImporterPlaid.Config.default account_name account_id) bts
      with _ | ⟨⟨i, t⟩, rest⟩
    · exact absurd h hne
    · exact hbank i t rest
  · intro l hl
    unfold ImporterPlaid._extract_bank at hl
    rcases h : ImporterPlaid.enumerateBank
        (ImporterPlaid.Config.default account_name account_id) bts
      with _ | ⟨⟨i, t⟩, rest⟩
    · rw [h] at hl
      simpa [ImporterPlaid.extractBankLoop] using hl.symm
    · rw [h, hbank i t rest] at hl
      cases hl
  · intro hne
    unfold ImporterPlaid._extract_investments
    rcases h : ImporterPlaid.enumerateInv
        (ImporterPlaid.Config.default account_name account_id) its
      with _ | ⟨⟨i, t⟩, rest⟩
    · exact absurd h hne
    · exact extractInvestmentsLoop_none_excl_error _ hexc secs filepath
        i t rest
  · intro l hl
    unfold ImporterPlaid._extract_investments at hl
    rcases h : ImporterPlaid.enumerateInv
        (ImporterPlaid.Config.default account_name account_id) its
      with _ | ⟨⟨i, t⟩, rest⟩
    · rw [h] at hl
      simpa [ImporterPlaid.extractInvestmentsLoop] using hl.symm
    · obtain ⟨e, he⟩ := extractInvestmentsLoop_none_excl_error _ hexc secs
        filepath i t rest
      rw [h, he] at hl
      cases hl

/-- A non-pending bank transaction of a DIFFERENT account. -/
def tC9other : PlaidBankTxn :=
  ⟨"b1", "acctX", false, 300, "STORE", some "Store", 10, "USD", ["Shops"]⟩

/-- A non-pending bank transaction of the configured account. -/
def tC9mine : PlaidBankTxn :=
  ⟨"b2", "acct1", false, 300, "STORE", some "Store", 10, "USD", ["Shops"]⟩

/-- C9, counterexample: under the default configuration, a snapshot
holding one non-pending bank transaction — belonging to a different
account — extracts successfully (the account filter skips it before
the `None` filter is ever touched), refuting "always raises a
TypeError ... never succeeds on non-empty transaction lists". -/
theorem C9_counterexample :
    ImporterPlaid._extract_bank
        (ImporterPlaid.Config.default "Assets:B" "acct1") "f.json"
        [tC9other] = .ok [] ∧
    tC9other.pending = false ∧
    (ImporterPlaid.Config.default "Assets:B"
      "acct1").exclude_descriptions = none := by
  refine ⟨?_, rfl, rfl⟩
  decide

/-- C9, witness: the amended theorem applied to a batch with one
non-pending bank transaction of the configured account. -/
theorem C9_amended_default_raises_witness :
    ImporterPlaid._extract_bank
        (ImporterPlaid.Config.default "Assets:B" "acct1") "f.json"
        [tC9mine] = .error .typeError := by
  have h := C9_amended_default_raises "Assets:B" "acct1" "f.json" [tC9mine]
    [] []
  exact h.1 (by decide)

/-!  ## Claim C6: the price projector -/

/-- Polarity helper: skip-when-degenerate equals emit-when-valid. -/
theorem ite_skip_polarity (p : ℚ) (l : Int) (x : BPrice) :
    (if p ≠ 1 ∧ l > ImporterPlaid.sentinel1971 then some x else none) =
      (if p = 1 ∨ l ≤ ImporterPlaid.sentinel1971 then none else some x) := by
  by_cases h1 : p = 1 <;> by_cases h2 : l ≤ ImporterPlaid.sentinel1971 <;>
    simp [h1, h2, not_lt.mpr, lt_of_not_le]

/-- C6: for a holding of the imported account, the price projector
compares the security's close-price timestamp with the holding's
institution-price timestamp, uses the security's price, currency and
date exactly when the security's timestamp is strictly more recent and
the holding's otherwise, emits nothing when the chosen price is the
degenerate unit price or the chosen date is at or below the
1971-01-02 sentinel, and otherwise emits exactly one price observation
dated to the chosen as-of date. -/
theorem C6_price_projection (cfg : ImporterPlaid.Config) (sec : Security)
    (holding : Holding) (filepath : String) (index : Nat) :
    ImporterPlaid._investment_create_price_one
        {cfg with account_id := holding.account_id}
        [(holding.security_id, sec)] filepath index holding =
    .ok
      (if (if sec.close_price_as_of.getD ImporterPlaid.epoch1970 >
              holding.institution_price_as_of.getD ImporterPlaid.epoch1970
           then sec.close_price else holding.institution_price) = 1 ∨
          (if sec.close_price_as_of.getD ImporterPlaid.epoch1970 >
              holding.institution_price_as_of.getD ImporterPlaid.epoch1970
           then sec.close_price_as_of.getD ImporterPlaid.epoch1970
           else holding.institution_price_as_of.getD ImporterPlaid.epoch1970)
            ≤ ImporterPlaid.sentinel1971
       then none
       else some
         ⟨newMetadata filepath index,
          (if sec.close_price_as_of.getD ImporterPlaid.epoch1970 >
              holding.institution_price_as_of.getD ImporterPlaid.epoch1970
           then sec.close_price_as_of.getD ImporterPlaid.epoch1970
           else holding.institution_price_as_of.getD ImporterPlaid.epoch1970),
          sec.ticker_symbol,
          ⟨(if sec.close_price_as_of.getD ImporterPlaid.epoch1970 >
                holding.institution_price_as_of.getD ImporterPlaid.epoch1970
             then sec.close_price else holding.institution_price),
           (if sec.close_price_as_of.getD ImporterPlaid.epoch1970 >
                holding.institution_price_as_of.getD ImporterPlaid.epoch1970
             then sec.iso_currency_code
             else holding.iso_currency_code)⟩⟩) := by
  have hb : (holding.security_id == holding.security_id) = true := by simp
  rw [← ite_skip_polarity]
  by_cases hgt : sec.close_price_as_of.getD ImporterPlaid.epoch1970 >
      holding.institution_price_as_of.getD ImporterPlaid.epoch1970 <;>
    simp [ImporterPlaid._investment_create_price_one, secLookup, List.find?,
          hb, Bind.bind, Except.bind, hgt] <;>
    split_ifs <;> rfl

/-!  ## Claim C2: the per-currency zero-sum invariant -/

/-- Configuration for the C2 counterexample. -/
def cfgC2 : ImporterPlaid.Config :=
  ImporterPlaid.Config.default "Assets:Inv" "acct1"

/-- A cash deposit of 5 USD. -/
def tC2dep : PlaidInvTxn :=
  ⟨"tid2", "acct1", "cash", some "deposit", 500, "deposit", 5, 0, 0, 0,
   "USD", "sec2"⟩

/-- A clean buy: amount 1000 = 10 × 100, no fee. -/
def tC2buy : PlaidInvTxn :=
  ⟨"tid3", "acct1", "buy", some "buy", 500, "buy xyz", 1000, 10, 100, 0,
   "USD", "sec2"⟩

/-- The security of the C2 buy counterexample. -/
def secC2 : Security :=
  ⟨"sec2", "XYZ Corp", some "XYZ", false, 100, some 400, "USD"⟩

/-- C2, counterexample: (a) the cash-deposit handler synthesizes a
single-posting entry whose USD postings sum to −5, not 0; (b) even for
a clean buy, the cash-denominated postings excluding the cost-lot
posting sum to −1000, not 0 (the entry balances only when the lot
posting is weighed at quantity × cost price). -/
theorem C2_counterexample :
    (ImporterPlaid.invs_cash_deposit cfgC2 tC2dep "f.json" 0).map
      (fun txn => (txn.postings.map (fun p => p.units.currency),
                   cashSum txn.postings "USD")) = .ok (["USD"], -5) ∧
    ((-5 : ℚ) ≠ 0) ∧
    (ImporterPlaid._invs_buy cfgC2 [("sec2", secC2)] cfgC2.cash_account
        tC2buy "f.json" 0).map
      (fun txn => cashSum txn.postings "USD") = .ok (-1000) ∧
    ((-1000 : ℚ) ≠ 0) := by
  refine ⟨?_, by norm_num, ?_, by norm_num⟩
  · simp [ImporterPlaid.invs_cash_deposit, cfgC2, tC2dep,
          ImporterPlaid.Config.default, ImporterPlaid.Config.make,
          BAmount.neg, Except.map, cashSum]
  · simp [ImporterPlaid._invs_buy, cfgC2, secC2, tC2buy,
          ImporterPlaid.Config.default, ImporterPlaid.Config.make, secLookup,
          BAmount.neg, Bind.bind, Except.bind, Except.map, Option.getD,
          cashSum]
    norm_num

/-- C2, amended: the multi-posting handlers balance — the dividend
handler and the cash-equivalent branch of the fee handler have
per-currency cash sums of zero, and the buy/sell handler's
non-money-market entries have per-currency WEIGHT sums of zero (a
cost-lot posting weighing quantity × its per-unit cost) — while the
single-posting cash deposit and withdrawal handlers produce entries
whose cash sum in the transaction currency is −amount, balanced only
implicitly against the unstated counter-account. -/
theorem C2_amended_balance (cfg : ImporterPlaid.Config) (sec : Security)
    (t : PlaidInvTxn) (account filepath : String) (index : Nat)
    (cur : String)
    (hmm : sec.ticker_symbol.getD "unknown" ∉ cfg.money_market_funds) :
    (ImporterPlaid.invs_cash_dividend cfg [(t.security_id, sec)] t
        filepath index).map (fun txn => cashSum txn.postings cur) =
      .ok 0 ∧
    (ImporterPlaid.invs_fees_account cfg
        [(t.security_id,
          {sec with ticker_symbol := none, is_cash_equivalent := true})] t
        filepath index).map (fun txn => cashSum txn.postings cur) =
      .ok 0 ∧
    (ImporterPlaid._invs_buy cfg [(t.security_id, sec)] account t
        filepath index).map (fun txn => weightSum txn.postings cur) =
      .ok 0 ∧
    (ImporterPlaid.invs_cash_deposit cfg t filepath index).map
      (fun txn => cashSum txn.postings t.iso_currency_code) =
      .ok (-t.amount) ∧
    (ImporterPlaid.invs_cash_withdrawal cfg t filepath index).map
      (fun txn => cashSum txn.postings t.iso_currency_code) =
      .ok (-t.amount) := by
  refine ⟨?_, ?_, ?_, ?_, ?_⟩
  · by_cases hc : t.iso_currency_code = cur <;>
      simp [ImporterPlaid.invs_cash_dividend, secLookup, BAmount.neg,
            Bind.bind, Except.bind, Except.map, cashSum, hc]
  · by_cases hc : t.iso_currency_code = cur <;>
      simp [ImporterPlaid.invs_fees_account, secLookup, BAmount.neg,
            Bind.bind, Except.bind, Except.map, cashSum, hc]
  · have hmm2 := hmm
    rcases hst : sec.ticker_symbol with _ | tk <;>
      simp only [hst, Option.getD] at hmm2 <;>
      by_cases hf : t.fees = 0 <;>
      by_cases hd : t.amount - t.quantity * t.price = 0 <;>
      by_cases hsell : t.ttype = "sell" <;>
      by_cases hc : t.iso_currency_code = cur <;>
      · simp [ImporterPlaid._invs_buy, secLookup, BAmount.neg, Bind.bind,
              Except.bind, Except.map, Option.getD, hst, hmm2, hf, hd, hsell,
              hc, weightSum, postingWeight, List.foldl_cons, List.foldl_nil]
        try linarith
  · simp [ImporterPlaid.invs_cash_deposit, BAmount.neg, Except.map, cashSum]
  · simp [ImporterPlaid.invs_cash_withdrawal, BAmount.neg, Except.map,
          cashSum]

/-- C2, witness for the amended theorem at a concrete input. -/
theorem C2_amended_balance_witness :
    (ImporterPlaid.invs_cash_dividend cfgC2 [("sec2", secC2)] tC2dep
        "f.json" 0).map (fun txn => cashSum txn.postings "USD") =
      .ok 0 ∧
    (ImporterPlaid.invs_cash_deposit cfgC2 tC2dep "f.json" 0).map
      (fun txn => cashSum txn.postings "USD") = .ok (-5) := by
  have h := C2_amended_balance cfgC2 secC2 tC2dep cfgC2.cash_account
    "f.json" 0 "USD" (by decide)
  exact ⟨h.1, by simpa [tC2dep] using h.2.2.2.1⟩
theorem filterMap_ite_none {α β : Type} (p : α → Bool) (f : α → β)
    (g : α → Option β) (h : ∀ x, g x = if p x then none else some (f x)) :
    ∀ l : List α, l.filterMap g = (l.filter (fun x => !p x)).map f := by
  intro l
  induction l with
  | nil => rfl
  | cons x xs ih =>
      by_cases hx : p x
      · simp [List.filterMap_cons, List.filter_cons, h x, hx, ih]
      · simp [List.filterMap_cons, List.filter_cons, h x, hx, ih]

/-- C7, amended: every non-pending bank transaction yields a
two-posting entry — the owning account with the negated raw amount, and
an expense account `Expenses:` followed by the category components
normalized (apostrophes and commas removed, spaces replaced by hyphens)
and joined into COLON-separated segments, so `["Food", "Restaurants"]`
yields `Expenses:Food:Restaurants`; pending transactions produce no
entry. -/
theorem C7_amended_bank_entries (account_name filepath currency : String)
    (ts : List PlaidBankTxn) :
    PlaidBank.extractTxns account_name filepath currency ts =
      (ts.enum.filter (fun it => !it.2.pending)).map (fun it =>
        ⟨newMetadata filepath it.1, it.2.date, FLAG_OKAY, it.2.merchant_name,
         it.2.name,
         [⟨account_name, ⟨-it.2.amount, currency⟩, none, none, none,
            some [("transaction_id", MetaVal.s it.2.transaction_id)]⟩,
          ⟨"Expenses:" ++ PlaidBank.normalizeCategory it.2.category,
            ⟨it.2.amount, currency⟩, none, none, some FLAG_WARNING, none⟩]⟩) ∧
    PlaidBank.normalizeCategory ["Food", "Restaurants"] =
      "Food:Restaurants" := by
  constructor
  · exact filterMap_ite_none (fun it => it.2.pending)
      (fun it =>
        ⟨newMetadata filepath it.1, it.2.date, FLAG_OKAY, it.2.merchant_name,
         it.2.name,
         [⟨account_name, ⟨-it.2.amount, currency⟩, none, none, none,
            some [("transaction_id", MetaVal.s it.2.transaction_id)]⟩,
          ⟨"Expenses:" ++ PlaidBank.normalizeCategory it.2.category,
            ⟨it.2.amount, currency⟩, none, none, some FLAG_WARNING, none⟩]⟩)
      (fun it =>
        PlaidBank.extractTxnOne account_name filepath currency it.1 it.2)
      (fun it => by
        by_cases hp : it.2.pending <;>
          simp [PlaidBank.extractTxnOne, hp, BAmount.neg]) ts.enum
  · decide
